import Mathlib

/-!
Verification development for the camofox-browser-mcp server.

The definitions below are a shallow embedding of the TypeScript sources:

* `src/mcp-server/tools/definitions/camofox-browser.tool.ts` — the camofox
  tool definitions (cookie normalization, cookie import, tool logic bodies,
  and the `withToolAuth` wrapping with scope `tool:camofox:use`).
* The session / authentication / asynchronous-task subsystem
  (`taskManager.ts`, `sessionStore.ts`, `withAuth.ts`, storage providers) is
  part of the repository but its implementation files are not included in
  the provided sources; those components are modelled from the written
  specification, each such definition carries a doc comment starting with
  `Modelled from the spec:`.

JavaScript values flowing through the tool layer are modelled by a small
JSON value type; JS `undefined` is modelled by `Option`; thrown `McpError`s
become `Except` errors; outbound HTTP calls are reified into a request log,
with responses supplied by an environment function of the history so far.
-/

/-! ## JSON values and the `unknown`-value helpers of camofox-browser.tool.ts -/

/-- JSON value, the model of a JavaScript value in the tool layer.
Numbers are modelled as integers (the code never computes with them; cookie
expiry values such as `-1` are merely carried through). -/
inductive Json where
  | null : Json
  | bool (b : Bool) : Json
  | num (n : Int) : Json
  | str (s : String) : Json
  | arr (elems : List Json) : Json
  | obj (fields : List (String × Json)) : Json

/-- Property access `o[k]` on a JSON value: `none` models JS `undefined`
(absent property, or access on a non-object in the places the code guards). -/
def jget (j : Json) (k : String) : Option Json :=
  match j with
  | .obj fields => fields.lookup k
  | _ => none

/-- Embeds `isRecord` (camofox-browser.tool.ts): a non-null, non-array object. -/
def isRecord (j : Json) : Bool :=
  match j with
  | .obj _ => true
  | _ => false

/-- Embeds `getString`: the value if it is a string, else `undefined`.
Takes an `Option Json` so that it applies directly to property accesses. -/
def getString (v : Option Json) : Option String :=
  match v with
  | some (.str s) => some s
  | _ => none

/-- Embeds `getNumber`: the value if it is a number, else `undefined`. -/
def getNumber (v : Option Json) : Option Int :=
  match v with
  | some (.num n) => some n
  | _ => none

/-- Embeds `getBoolean`: the value if it is a boolean, else `undefined`. -/
def getBoolean (v : Option Json) : Option Bool :=
  match v with
  | some (.bool b) => some b
  | _ => none

/-- JS truthiness of an optional string: `undefined` and `""` are falsy. -/
def strTruthy (v : Option String) : Bool :=
  match v with
  | some s => !s.isEmpty
  | none => false

/-! ## Cookies: `CamofoxCookie`, `normalizeCookies` -/

/-- Embeds the `CamofoxCookie` shape (`CookieSchema`): optional fields are
`Option`s, mirroring properties that may be omitted. -/
structure CamofoxCookie where
  name : String
  value : String
  domain : String
  path : Option String
  expires : Option Int
  httpOnly : Option Bool
  secure : Option Bool
  sameSite : Option String

/-- Embeds the per-entry body of the `.map` inside `normalizeCookies`:
returns `none` exactly where the source returns `null`.  The JS guard
`if (!name || !domain || value === undefined) return null` rejects a
missing or empty `name`/`domain` but only a missing (non-string) `value`;
`...(getString(cookie.path) ? { path: ... } : {})` drops an empty path by
truthiness, while `httpOnly`/`secure` use explicit `!== undefined` checks. -/
def normalizeCookie (cookie : Json) : Option CamofoxCookie :=
  if isRecord cookie then
    match getString (jget cookie "name"), getString (jget cookie "value"),
        getString (jget cookie "domain") with
    | some name, some value, some domain =>
      if name.isEmpty || domain.isEmpty then none
      else
        let sameSiteRaw := getString (jget cookie "sameSite")
        let sameSite :=
          match sameSiteRaw with
          | some s =>
            if s = "Strict" || s = "Lax" || s = "None" then some s else none
          | none => none
        let expiresValue :=
          (getNumber (jget cookie "expires")).orElse
            (fun _ => getNumber (jget cookie "expirationDate"))
        some
          { name := name
            value := value
            domain := domain
            path :=
              match getString (jget cookie "path") with
              | some p => if p.isEmpty then none else some p
              | none => none
            expires := expiresValue
            httpOnly := getBoolean (jget cookie "httpOnly")
            secure := getBoolean (jget cookie "secure")
            sameSite := sameSite }
    | _, _, _ => none
  else none

/-- Embeds `normalizeCookies`: `.map(...).filter(c => c !== null)` is
`List.filterMap` of the per-entry function. -/
def normalizeCookies (cookies : List Json) : List CamofoxCookie :=
  cookies.filterMap normalizeCookie

/-- Serialization of a normalized cookie back to the JSON object shipped in
the import request body: mirrors the object-literal construction in
`normalizeCookies`, where absent optional fields are omitted. -/
def cookieToJson (c : CamofoxCookie) : Json :=
  .obj
    ([("name", .str c.name), ("value", .str c.value), ("domain", .str c.domain)]
      ++ (match c.path with | some p => [("path", Json.str p)] | none => [])
      ++ (match c.expires with | some n => [("expires", Json.num n)] | none => [])
      ++ (match c.httpOnly with | some b => [("httpOnly", Json.bool b)] | none => [])
      ++ (match c.secure with | some b => [("secure", Json.bool b)] | none => [])
      ++ (match c.sameSite with | some s => [("sameSite", Json.str s)] | none => []))

/-! ## Errors (`types-global/errors.ts`) -/

/-- Embeds the subset of `JsonRpcErrorCode` used by the camofox tools, plus
the two authentication failure categories of the spec (§4.3, §7). -/
inductive JsonRpcErrorCode where
  | InvalidParams
  | ValidationError
  | ConfigurationError
  | SerializationError
  | Unauthenticated
  | Forbidden
deriving DecidableEq

/-- Embeds `McpError`: an error code plus a human-readable message (the
structured `data` payload is not modelled; no claim inspects it). -/
structure McpErr where
  code : JsonRpcErrorCode
  message : String
deriving DecidableEq

/-- Error code of an `Except McpErr` outcome, if it is an error. -/
def errCode? {α : Type} (r : Except McpErr α) : Option JsonRpcErrorCode :=
  match r with
  | .error e => some e.code
  | .ok _ => none

/-! ## Configuration and the runtime environment -/

/-- Embeds `config.camofox` (from `config/index.ts`, visible through its
uses in the tool file): `apiKey` and `adminKey` may be unset. -/
structure CamofoxConfig where
  baseUrl : String
  timeoutMs : Nat
  defaultUserId : String
  defaultSessionKey : String
  apiKey : Option String
  adminKey : Option String

/-- Modelled from the spec: the `AuthorizationContext` of §3 — subject
identifier, granted scope set, credential expiry and raw-claim bag.  The
implementation file `transports/auth/lib/authContext.ts` is not among the
provided sources. -/
structure AuthorizationContext where
  subject : String
  scopes : List String
  expiresAt : Nat
  claims : List (String × Json)

/-- One outbound HTTP request to the camofox-browser backend, as assembled
by `requestCamofoxJson` / `requestCamofoxBinary`: method, path, optional
JSON body, query parameters (after dropping `undefined` values, as
`buildCamofoxUrl` does) and extra headers. -/
structure CamofoxRequest where
  method : String
  path : String
  body : Option Json
  query : List (String × String)
  headers : List (String × String)

/-- Environment a tool call runs in: the configuration, the credential
validator of the active auth strategy (spec-modelled), the camofox backend
(a JSON response as a function of the request history and the request), the
binary backend for screenshots, and the filesystem as parsed JSON content
(`none` models a read or parse failure). -/
structure Env where
  camofox : CamofoxConfig
  validate : String → Option AuthorizationContext
  http : List CamofoxRequest → CamofoxRequest → Json
  httpBinary : List CamofoxRequest → CamofoxRequest → List Nat × Option String
  readFile : String → Option Json

/-! ## The tool-call monad: exceptions plus a log of issued requests -/

/-- A tool computation: reads the environment, threads the list of HTTP
requests issued so far, and either produces a value or a thrown `McpError`.
The request log is kept on both paths — a request already sent stays sent
even if the call later throws. -/
def ToolM (α : Type) : Type :=
  Env → List CamofoxRequest → Except McpErr α × List CamofoxRequest

def ToolM.pure {α : Type} (a : α) : ToolM α := fun _ log => (.ok a, log)

def ToolM.bind {α β : Type} (x : ToolM α) (f : α → ToolM β) : ToolM β :=
  fun env log =>
    match x env log with
    | (.ok a, log2) => f a env log2
    | (.error e, log2) => (.error e, log2)

instance : Monad ToolM where
  pure := ToolM.pure
  bind := ToolM.bind

/-- Throwing an `McpError`. -/
def ToolM.throw {α : Type} (e : McpErr) : ToolM α := fun _ log => (.error e, log)

/-- Reading the environment. -/
def ToolM.env : ToolM Env := fun env log => (.ok env, log)

/-- Embeds a `try`/`catch` around a computation: the error becomes a value,
the request log of the attempted computation is kept. -/
def ToolM.attempt {α : Type} (x : ToolM α) : ToolM (Except McpErr α) :=
  fun env log =>
    match x env log with
    | (.ok a, log2) => (.ok (.ok a), log2)
    | (.error e, log2) => (.ok (.error e), log2)

/-! ## Request helpers of camofox-browser.tool.ts -/

/-- Percent-encoding of path segments is not modelled: requests carry the
raw identifier, which no claim inspects through the encoding. -/
def encodeURIComponent (s : String) : String := s

/-- Embeds the query handling of `buildCamofoxUrl`: entries whose value is
`undefined` are skipped; the rest are stringified. -/
def mkQuery (pairs : List (String × Option String)) : List (String × String) :=
  pairs.filterMap (fun p => p.2.map (fun v => (p.1, v)))

/-- Embeds `resolveUserId`: a user id that is missing, empty, or
whitespace-only falls back to `config.camofox.defaultUserId`. -/
def resolveUserId (env : Env) (userId : Option String) : String :=
  match userId with
  | some u => if !u.isEmpty && !u.trim.isEmpty then u else env.camofox.defaultUserId
  | none => env.camofox.defaultUserId

/-- Embeds `resolveSessionKey`, the analogous fallback to
`config.camofox.defaultSessionKey`. -/
def resolveSessionKey (env : Env) (sessionKey : Option String) : String :=
  match sessionKey with
  | some k => if !k.isEmpty && !k.trim.isEmpty then k else env.camofox.defaultSessionKey
  | none => env.camofox.defaultSessionKey

/-- Embeds `pickTabId`: `tabId` with `targetId` as fallback. -/
def pickTabId (response : Json) : Option String :=
  (getString (jget response "tabId")).orElse
    (fun _ => getString (jget response "targetId"))

/-- Standard headers assembled inside `requestCamofoxJson`: `Accept` plus
`Content-Type` when a body is present, then the caller-supplied headers. -/
def jsonHeaders (body : Option Json) (extra : List (String × String)) :
    List (String × String) :=
  [("Accept", "application/json")]
    ++ (if body.isSome then [("Content-Type", "application/json")] else [])
    ++ extra

/-- Embeds `requestCamofoxJson`: sends the request (appending it to the
log), then requires the response to be a JSON object, throwing a
`SerializationError` otherwise. -/
def requestCamofoxJson (method path : String) (body : Option Json)
    (query : List (String × String)) (extraHeaders : List (String × String)) :
    ToolM Json :=
  fun env log =>
    let req : CamofoxRequest :=
      { method := method, path := path, body := body, query := query
        headers := jsonHeaders body extraHeaders }
    let resp := env.http log req
    if isRecord resp then (.ok resp, log ++ [req])
    else
      (.error
        ⟨.SerializationError,
          "Expected JSON object from camofox endpoint " ++ path ++ "."⟩,
        log ++ [req])

/-- Embeds `requestCamofoxBinary` (screenshots): returns the raw bytes and
content type; no JSON-object requirement. -/
def requestCamofoxBinary (method path : String) (body : Option Json)
    (query : List (String × String)) : ToolM (List Nat × Option String) :=
  fun env log =>
    let req : CamofoxRequest :=
      { method := method, path := path, body := body, query := query
        headers :=
          [("Accept", "*/*")]
            ++ (if body.isSome then [("Content-Type", "application/json")] else []) }
    (.ok (env.httpBinary log req), log ++ [req])

/-- Embeds `requestCamofoxAct`: a POST to `/act` with kind, targetId,
userId and the action parameters. -/
def requestCamofoxAct (tabId userId kind : String)
    (params : List (String × Json)) : ToolM Json :=
  requestCamofoxJson "POST" "/act"
    (some (.obj
      ([("kind", .str kind), ("targetId", .str tabId), ("userId", .str userId)]
        ++ params)))
    [] []

/-! ## Cookie file loading and `importCookiesIfProvided` -/

/-- Embeds `loadCookiesFromFile`: JSON array → normalize; object with a
`cookies` array → normalize; anything else, or a read/parse failure, throws
a `ValidationError`. -/
def loadCookiesFromFile (cookiesFilePath : String) : ToolM (List CamofoxCookie) :=
  fun env log =>
    match env.readFile cookiesFilePath with
    | none => (.error ⟨.ValidationError, "Failed to read or parse cookie file."⟩, log)
    | some parsed =>
      match parsed with
      | .arr xs => (.ok (normalizeCookies xs), log)
      | .obj fields =>
        match fields.lookup "cookies" with
        | some (.arr xs) => (.ok (normalizeCookies xs), log)
        | _ =>
          (.error
            ⟨.ValidationError,
              "Cookie file must be a JSON array of cookies or an object containing a cookies array."⟩,
            log)
      | _ =>
        (.error
          ⟨.ValidationError,
            "Cookie file must be a JSON array of cookies or an object containing a cookies array."⟩,
          log)

/-- Result shape of `importCookiesIfProvided`. -/
structure ImportResult where
  imported : Bool
  count : Nat
  response : Option Json

/-- The request `importCookiesIfProvided` sends when it has cookies:
POST `/sessions/:userId/cookies` with all cookies in the body and a bearer
authorization header carrying the configured API key. -/
def cookieImportRequest (env : Env) (userId : String)
    (allCookies : List CamofoxCookie) : CamofoxRequest :=
  { method := "POST"
    path := "/sessions/" ++ encodeURIComponent userId ++ "/cookies"
    body := some (.obj [("cookies", .arr (allCookies.map cookieToJson))])
    query := []
    headers :=
      jsonHeaders (some (.obj [("cookies", .arr (allCookies.map cookieToJson))]))
        [("Authorization", "Bearer " ++ (env.camofox.apiKey.getD ""))] }

/-- Embeds `importCookiesIfProvided`: trims the optional file path, loads
and normalizes file cookies, concatenates direct cookies before file
cookies, returns `{imported: false, count: 0}` when there is nothing to
import, requires `CAMOFOX_API_KEY` (a `ConfigurationError` otherwise), and
submits all cookies in one request. -/
def importCookiesIfProvided (userId : String)
    (cookies : Option (List CamofoxCookie)) (cookiesFilePath : Option String) :
    ToolM ImportResult :=
  fun env log =>
    let fileStep : Except McpErr (List CamofoxCookie) × List CamofoxRequest :=
      match cookiesFilePath.map String.trim with
      | some p => if p.isEmpty then (.ok [], log) else loadCookiesFromFile p env log
      | none => (.ok [], log)
    match fileStep with
    | (.error e, log2) => (.error e, log2)
    | (.ok fileCookies, log2) =>
      let allCookies := (cookies.getD []) ++ fileCookies
      if allCookies.isEmpty then
        (.ok { imported := false, count := 0, response := none }, log2)
      else if !strTruthy env.camofox.apiKey then
        (.error
          ⟨.ConfigurationError, "CAMOFOX_API_KEY is required to import cookies."⟩,
          log2)
      else
        match
          requestCamofoxJson "POST"
            ("/sessions/" ++ encodeURIComponent userId ++ "/cookies")
            (some (.obj [("cookies", .arr (allCookies.map cookieToJson))]))
            []
            [("Authorization", "Bearer " ++ (env.camofox.apiKey.getD ""))]
            env log2
        with
        | (.ok resp, log3) =>
          (.ok
            { imported := true, count := allCookies.length
              response := some resp },
            log3)
        | (.error e, log3) => (.error e, log3)

/-! ## The authentication gate (spec-modelled) and tool wrapping -/

/-- The two coarse authentication failure categories of §4.3 / §7. -/
inductive AuthFailure where
  | unauthenticated
  | forbidden
deriving DecidableEq

/-- Modelled from the spec: the Auth Middleware contract of §4.3 — given a
raw credential (or absence thereof) and a required scope set, produce an
`AuthorizationContext` or fail with `Unauthenticated` (no/invalid
credential) or `Forbidden` (valid credential, insufficient scope).  The
implementation (`transports/auth/lib/withAuth.ts`, `authMiddleware.ts`) is
not among the provided sources; `validate` is the selected strategy. -/
def authGate (validate : String → Option AuthorizationContext)
    (cred : Option String) (required : List String) :
    Except AuthFailure AuthorizationContext :=
  match cred with
  | none => .error .unauthenticated
  | some c =>
    match validate c with
    | none => .error .unauthenticated
    | some ctx =>
      if required.all (fun s => ctx.scopes.contains s) then .ok ctx
      else .error .forbidden

/-- The `McpError` corresponding to an authentication failure. -/
def authFailureErr : AuthFailure → McpErr
  | .unauthenticated => ⟨.Unauthenticated, "Authentication required."⟩
  | .forbidden => ⟨.Forbidden, "Insufficient scope."⟩

/-- Modelled from the spec: `withToolAuth(requiredScopes, logic)` gates the
tool logic behind the Auth Middleware — the wrapped logic runs only after
the gate produces an authorization context, and a failing gate yields the
corresponding error with no effect (no request issued). -/
def withToolAuth {I O : Type} (required : List String) (logic : I → ToolM O) :
    Option String → I → ToolM O :=
  fun cred input env log =>
    match authGate env.validate cred required with
    | .ok _ctx => logic input env log
    | .error f => (.error (authFailureErr f), log)

/-- Embeds `CAMOFOX_SCOPE = ['tool:camofox:use']`. -/
def CAMOFOX_SCOPE : List String := ["tool:camofox:use"]

/-- A tool definition: its registered name and its (auth-wrapped) logic.
Schema, title, description and annotations are metadata no claim inspects
and are not modelled. -/
structure ToolDef (I O : Type) where
  name : String
  logic : Option String → I → ToolM O

/-! ## Small idioms shared by the tool bodies -/

/-- The conditional-spread idiom `...(v ? { k: v } : {})` for a string
field: present only when the value is truthy. -/
def optField (k : String) (v : Option String) : List (String × Json) :=
  match v with
  | some s => if s.isEmpty then [] else [(k, .str s)]
  | none => []

/-- The output idiom `...(getString(x) ? { url: getString(x) } : {})`:
keeps a string only when truthy. -/
def optStrTruthy (v : Option String) : Option String :=
  match v with
  | some s => if s.isEmpty then none else some s
  | none => none

/-- JS truthiness of an optional boolean (`input.pressEnter ? ... : ...`). -/
def boolTruthy (v : Option Bool) : Bool := v.getD false

/-! ## Tool inputs, outputs and logic bodies (camofox-browser.tool.ts) -/

/-- Input of `camofox_health` (no fields). -/
structure HealthInput

/-- Output of `camofox_health`. -/
structure HealthOutput where
  health : Json

/-- Embeds the logic body of `camofoxHealthTool`. -/
def healthLogic (_input : HealthInput) : ToolM HealthOutput := do
  let health ← requestCamofoxJson "GET" "/health" none [] []
  ToolM.pure { health := health }

def camofoxHealthTool : ToolDef HealthInput HealthOutput :=
  { name := "camofox_health", logic := withToolAuth CAMOFOX_SCOPE healthLogic }

/-- Input of `camofox_start_browser` (no fields). -/
structure StartInput

/-- Output of `camofox_start_browser`. -/
structure StartOutput where
  started : Bool
  response : Json

/-- Embeds the logic body of `camofoxStartBrowserTool`. -/
def startLogic (_input : StartInput) : ToolM StartOutput := do
  let response ← requestCamofoxJson "POST" "/start" (some (.obj [])) [] []
  ToolM.pure
    { started := (getBoolean (jget response "ok")).getD true, response := response }

def camofoxStartBrowserTool : ToolDef StartInput StartOutput :=
  { name := "camofox_start_browser", logic := withToolAuth CAMOFOX_SCOPE startLogic }

/-- Input of `camofox_list_tabs`. -/
structure ListTabsInput where
  userId : Option String

/-- Output of `camofox_list_tabs`. -/
structure ListTabsOutput where
  userId : String
  response : Json

/-- Embeds the logic body of `camofoxListTabsTool`. -/
def listTabsLogic (input : ListTabsInput) : ToolM ListTabsOutput := do
  let env ← ToolM.env
  let userId := resolveUserId env input.userId
  let response ←
    requestCamofoxJson "GET" "/tabs" none (mkQuery [("userId", some userId)]) []
  ToolM.pure { userId := userId, response := response }

def camofoxListTabsTool : ToolDef ListTabsInput ListTabsOutput :=
  { name := "camofox_list_tabs", logic := withToolAuth CAMOFOX_SCOPE listTabsLogic }

/-- Input of `camofox_create_tab`. -/
structure CreateTabInput where
  userId : Option String
  sessionKey : Option String
  url : Option String

/-- Output of `camofox_create_tab`. -/
structure CreateTabOutput where
  userId : String
  sessionKey : String
  tabId : String
  url : String
  response : Json

/-- Embeds the logic body of `camofoxCreateTabTool`: throws a
`SerializationError` when the response lacks a truthy `tabId` or `url`. -/
def createTabLogic (input : CreateTabInput) : ToolM CreateTabOutput := do
  let env ← ToolM.env
  let userId := resolveUserId env input.userId
  let sessionKey := resolveSessionKey env input.sessionKey
  let response ←
    requestCamofoxJson "POST" "/tabs"
      (some (.obj
        ([("userId", .str userId), ("sessionKey", .str sessionKey)]
          ++ optField "url" input.url)))
      [] []
  match optStrTruthy (pickTabId response),
      optStrTruthy (getString (jget response "url")) with
  | some tabId, some url =>
    ToolM.pure
      { userId := userId, sessionKey := sessionKey, tabId := tabId, url := url
        response := response }
  | _, _ =>
    ToolM.throw
      ⟨.SerializationError, "camofox /tabs response is missing tabId or url."⟩

def camofoxCreateTabTool : ToolDef CreateTabInput CreateTabOutput :=
  { name := "camofox_create_tab", logic := withToolAuth CAMOFOX_SCOPE createTabLogic }

/-- Input of `camofox_navigate_tab`.  The source field `macro` is named
`macroArg` here (`macro` is a reserved word in Lean). -/
structure NavigateTabInput where
  tabId : String
  userId : Option String
  sessionKey : Option String
  url : Option String
  macroArg : Option String
  query : Option String

/-- Output of `camofox_navigate_tab`. -/
structure NavigateTabOutput where
  tabId : String
  url : String
  response : Json

/-- Embeds the logic body of `camofoxNavigateTabTool`: requires `url` or
`macro` before issuing any request. -/
def navigateTabLogic (input : NavigateTabInput) : ToolM NavigateTabOutput := do
  if !strTruthy input.url && !strTruthy input.macroArg then
    ToolM.throw ⟨.InvalidParams, "Provide either url or macro for navigation."⟩
  else do
    let env ← ToolM.env
    let response ←
      requestCamofoxJson "POST"
        ("/tabs/" ++ encodeURIComponent input.tabId ++ "/navigate")
        (some (.obj
          ([("userId", .str (resolveUserId env input.userId))]
            ++ optField "sessionKey" input.sessionKey
            ++ optField "url" input.url
            ++ optField "macro" input.macroArg
            ++ optField "query" input.query)))
        [] []
    match optStrTruthy (getString (jget response "url")) with
    | some url =>
      ToolM.pure { tabId := input.tabId, url := url, response := response }
    | none =>
      ToolM.throw ⟨.SerializationError, "camofox navigate response is missing url."⟩

def camofoxNavigateTabTool : ToolDef NavigateTabInput NavigateTabOutput :=
  { name := "camofox_navigate_tab"
    logic := withToolAuth CAMOFOX_SCOPE navigateTabLogic }

/-- Input of `camofox_get_snapshot`. -/
structure SnapshotInput where
  tabId : String
  userId : Option String
  includeScreenshot : Option Bool
  offset : Option Int

/-- Output of `camofox_get_snapshot`. -/
structure SnapshotOutput where
  tabId : String
  url : String
  snapshot : String
  refsCount : Int
  truncated : Bool
  hasMore : Option Bool
  nextOffset : Option Int
  response : Json

/-- Embeds the logic body of `camofoxGetSnapshotTool`. -/
def getSnapshotLogic (input : SnapshotInput) : ToolM SnapshotOutput := do
  let env ← ToolM.env
  let response ←
    requestCamofoxJson "GET"
      ("/tabs/" ++ encodeURIComponent input.tabId ++ "/snapshot") none
      (mkQuery
        [("userId", some (resolveUserId env input.userId)),
         ("includeScreenshot", input.includeScreenshot.map toString),
         ("offset", input.offset.map toString)])
      []
  match optStrTruthy (getString (jget response "url")),
      getString (jget response "snapshot"), getNumber (jget response "refsCount"),
      getBoolean (jget response "truncated") with
  | some url, some snapshot, some refsCount, some truncated =>
    ToolM.pure
      { tabId := input.tabId, url := url, snapshot := snapshot
        refsCount := refsCount, truncated := truncated
        hasMore := getBoolean (jget response "hasMore")
        nextOffset := getNumber (jget response "nextOffset"), response := response }
  | _, _, _, _ =>
    ToolM.throw
      ⟨.SerializationError, "Snapshot response did not include required fields."⟩

def camofoxGetSnapshotTool : ToolDef SnapshotInput SnapshotOutput :=
  { name := "camofox_get_snapshot"
    logic := withToolAuth CAMOFOX_SCOPE getSnapshotLogic }

/-- Input of `camofox_click`. -/
structure ClickInput where
  tabId : String
  userId : Option String
  ref : Option String
  selector : Option String

/-- Output of `camofox_click`. -/
structure ClickOutput where
  tabId : String
  url : Option String
  response : Json

/-- Embeds the logic body of `camofoxClickTool`: requires `ref` or
`selector` before issuing any request. -/
def clickLogic (input : ClickInput) : ToolM ClickOutput := do
  if !strTruthy input.ref && !strTruthy input.selector then
    ToolM.throw ⟨.InvalidParams, "Provide either ref or selector for click."⟩
  else do
    let env ← ToolM.env
    let response ←
      requestCamofoxJson "POST"
        ("/tabs/" ++ encodeURIComponent input.tabId ++ "/click")
        (some (.obj
          ([("userId", .str (resolveUserId env input.userId))]
            ++ optField "ref" input.ref ++ optField "selector" input.selector)))
        [] []
    ToolM.pure
      { tabId := input.tabId
        url := optStrTruthy (getString (jget response "url")), response := response }

def camofoxClickTool : ToolDef ClickInput ClickOutput :=
  { name := "camofox_click", logic := withToolAuth CAMOFOX_SCOPE clickLogic }

/-- Input of `camofox_type`. -/
structure TypeInput where
  tabId : String
  userId : Option String
  text : String
  ref : Option String
  selector : Option String
  pressEnter : Option Bool

/-- Output of `camofox_type`. -/
structure TypeOutput where
  tabId : String
  typed : Bool
  pressedEnter : Bool
  response : Json
  pressResponse : Option Json

/-- Embeds the logic body of `camofoxTypeTool`: requires `ref` or
`selector` before issuing any request; optionally presses Enter. -/
def typeLogic (input : TypeInput) : ToolM TypeOutput := do
  if !strTruthy input.ref && !strTruthy input.selector then
    ToolM.throw ⟨.InvalidParams, "Provide either ref or selector for typing."⟩
  else do
    let env ← ToolM.env
    let userId := resolveUserId env input.userId
    let response ←
      requestCamofoxJson "POST"
        ("/tabs/" ++ encodeURIComponent input.tabId ++ "/type")
        (some (.obj
          ([("userId", .str userId), ("text", .str input.text)]
            ++ optField "ref" input.ref ++ optField "selector" input.selector)))
        [] []
    let pressResponse ←
      if boolTruthy input.pressEnter then do
        let r ←
          requestCamofoxJson "POST"
            ("/tabs/" ++ encodeURIComponent input.tabId ++ "/press")
            (some (.obj [("userId", .str userId), ("key", .str "Enter")])) [] []
        ToolM.pure (some r)
      else ToolM.pure none
    ToolM.pure
      { tabId := input.tabId, typed := true
        pressedEnter := boolTruthy input.pressEnter, response := response
        pressResponse := pressResponse }

def camofoxTypeTool : ToolDef TypeInput TypeOutput :=
  { name := "camofox_type", logic := withToolAuth CAMOFOX_SCOPE typeLogic }

/-- Input of `camofox_scroll` (zod defaults already applied). -/
structure ScrollInput where
  tabId : String
  userId : Option String
  direction : String
  amount : Int

/-- Output of `camofox_scroll`. -/
structure ScrollOutput where
  tabId : String
  response : Json

/-- Embeds the logic body of `camofoxScrollTool`. -/
def scrollLogic (input : ScrollInput) : ToolM ScrollOutput := do
  let env ← ToolM.env
  let response ←
    requestCamofoxJson "POST"
      ("/tabs/" ++ encodeURIComponent input.tabId ++ "/scroll")
      (some (.obj
        [("userId", .str (resolveUserId env input.userId)),
         ("direction", .str input.direction), ("amount", .num input.amount)]))
      [] []
  ToolM.pure { tabId := input.tabId, response := response }

def camofoxScrollTool : ToolDef ScrollInput ScrollOutput :=
  { name := "camofox_scroll", logic := withToolAuth CAMOFOX_SCOPE scrollLogic }

/-- Input of `camofox_close_tab`. -/
structure CloseTabInput where
  tabId : String
  userId : Option String

/-- Output of `camofox_close_tab`. -/
structure CloseTabOutput where
  tabId : String
  response : Json

/-- Embeds the logic body of `camofoxCloseTabTool`. -/
def closeTabLogic (input : CloseTabInput) : ToolM CloseTabOutput := do
  let env ← ToolM.env
  let response ←
    requestCamofoxJson "DELETE" ("/tabs/" ++ encodeURIComponent input.tabId)
      (some (.obj [("userId", .str (resolveUserId env input.userId))])) [] []
  ToolM.pure { tabId := input.tabId, response := response }

def camofoxCloseTabTool : ToolDef CloseTabInput CloseTabOutput :=
  { name := "camofox_close_tab", logic := withToolAuth CAMOFOX_SCOPE closeTabLogic }

/-- Input of `camofox_import_cookies`. -/
structure ImportCookiesInput where
  userId : Option String
  cookies : Option (List CamofoxCookie)
  cookiesFilePath : Option String

/-- Output of `camofox_import_cookies`. -/
structure ImportCookiesOutput where
  userId : String
  imported : Bool
  count : Nat
  response : Option Json

/-- Embeds the logic body of `camofoxImportCookiesTool`. -/
def importCookiesLogic (input : ImportCookiesInput) : ToolM ImportCookiesOutput := do
  let env ← ToolM.env
  let userId := resolveUserId env input.userId
  let imported ← importCookiesIfProvided userId input.cookies input.cookiesFilePath
  ToolM.pure
    { userId := userId, imported := imported.imported, count := imported.count
      response := imported.response }

def camofoxImportCookiesTool : ToolDef ImportCookiesInput ImportCookiesOutput :=
  { name := "camofox_import_cookies"
    logic := withToolAuth CAMOFOX_SCOPE importCookiesLogic }

/-- Input of `camofox_press`. -/
structure PressInput where
  tabId : String
  userId : Option String
  key : String

/-- Output of `camofox_press`. -/
structure PressOutput where
  tabId : String
  key : String
  response : Json

/-- Embeds the logic body of `camofoxPressTool`. -/
def pressLogic (input : PressInput) : ToolM PressOutput := do
  let env ← ToolM.env
  let response ←
    requestCamofoxJson "POST"
      ("/tabs/" ++ encodeURIComponent input.tabId ++ "/press")
      (some (.obj
        [("userId", .str (resolveUserId env input.userId)),
         ("key", .str input.key)]))
      [] []
  ToolM.pure { tabId := input.tabId, key := input.key, response := response }

def camofoxPressTool : ToolDef PressInput PressOutput :=
  { name := "camofox_press", logic := withToolAuth CAMOFOX_SCOPE pressLogic }

/-- Input of `camofox_wait` (zod defaults already applied). -/
structure WaitInput where
  tabId : String
  userId : Option String
  timeoutMs : Int
  waitForNetwork : Bool

/-- Output of `camofox_wait`. -/
structure WaitOutput where
  tabId : String
  ready : Bool
  response : Json

/-- Embeds the logic body of `camofoxWaitTool`. -/
def waitLogic (input : WaitInput) : ToolM WaitOutput := do
  let env ← ToolM.env
  let response ←
    requestCamofoxJson "POST"
      ("/tabs/" ++ encodeURIComponent input.tabId ++ "/wait")
      (some (.obj
        [("userId", .str (resolveUserId env input.userId)),
         ("timeout", .num input.timeoutMs),
         ("waitForNetwork", .bool input.waitForNetwork)]))
      [] []
  ToolM.pure
    { tabId := input.tabId, ready := (getBoolean (jget response "ready")).getD false
      response := response }

def camofoxWaitTool : ToolDef WaitInput WaitOutput :=
  { name := "camofox_wait", logic := withToolAuth CAMOFOX_SCOPE waitLogic }

/-- Input shared by the history navigation tools. -/
structure HistoryNavInput where
  tabId : String
  userId : Option String

/-- Output shared by the history navigation tools. -/
structure HistoryNavOutput where
  tabId : String
  url : Option String
  response : Json

/-- Shared body of back/forward/refresh: POST to the given history
endpoint with the resolved user id. -/
def historyNavLogic (endpoint : String) (input : HistoryNavInput) :
    ToolM HistoryNavOutput := do
  let env ← ToolM.env
  let response ←
    requestCamofoxJson "POST"
      ("/tabs/" ++ encodeURIComponent input.tabId ++ "/" ++ endpoint)
      (some (.obj [("userId", .str (resolveUserId env input.userId))])) [] []
  ToolM.pure
    { tabId := input.tabId, url := optStrTruthy (getString (jget response "url"))
      response := response }

/-- Embeds the logic body of `camofoxBackTool`. -/
def backLogic (input : HistoryNavInput) : ToolM HistoryNavOutput :=
  historyNavLogic "back" input

def camofoxBackTool : ToolDef HistoryNavInput HistoryNavOutput :=
  { name := "camofox_back", logic := withToolAuth CAMOFOX_SCOPE backLogic }

/-- Embeds the logic body of `camofoxForwardTool`. -/
def forwardLogic (input : HistoryNavInput) : ToolM HistoryNavOutput :=
  historyNavLogic "forward" input

def camofoxForwardTool : ToolDef HistoryNavInput HistoryNavOutput :=
  { name := "camofox_forward", logic := withToolAuth CAMOFOX_SCOPE forwardLogic }

/-- Embeds the logic body of `camofoxRefreshTool`. -/
def refreshLogic (input : HistoryNavInput) : ToolM HistoryNavOutput :=
  historyNavLogic "refresh" input

def camofoxRefreshTool : ToolDef HistoryNavInput HistoryNavOutput :=
  { name := "camofox_refresh", logic := withToolAuth CAMOFOX_SCOPE refreshLogic }

/-- One extracted link item. -/
structure LinkItem where
  url : String
  text : String

/-- Input of `camofox_get_links` (zod defaults already applied). -/
structure GetLinksInput where
  tabId : String
  userId : Option String
  limit : Int
  offset : Int

/-- Output of `camofox_get_links`. -/
structure GetLinksOutput where
  tabId : String
  links : List LinkItem
  response : Json

/-- Embeds the logic body of `camofoxGetLinksTool`: keeps only record
entries of `response.links`, defaulting missing strings to `""`. -/
def getLinksLogic (input : GetLinksInput) : ToolM GetLinksOutput := do
  let env ← ToolM.env
  let response ←
    requestCamofoxJson "GET"
      ("/tabs/" ++ encodeURIComponent input.tabId ++ "/links") none
      (mkQuery
        [("userId", some (resolveUserId env input.userId)),
         ("limit", some (toString input.limit)),
         ("offset", some (toString input.offset))])
      []
  let links :=
    match jget response "links" with
    | some (.arr entries) =>
      (entries.filter isRecord).map
        (fun entry =>
          { url := (getString (jget entry "url")).getD ""
            text := (getString (jget entry "text")).getD "" : LinkItem })
    | _ => []
  ToolM.pure { tabId := input.tabId, links := links, response := response }

def camofoxGetLinksTool : ToolDef GetLinksInput GetLinksOutput :=
  { name := "camofox_get_links", logic := withToolAuth CAMOFOX_SCOPE getLinksLogic }

/-- Input of `camofox_screenshot` (zod default applied to `fullPage`). -/
structure ScreenshotInput where
  tabId : String
  userId : Option String
  fullPage : Bool

/-- Output of `camofox_screenshot`.  The base64 transcoding of the source
is not modelled; the raw bytes are carried instead. -/
structure ScreenshotOutput where
  tabId : String
  mimeType : String
  imageBytes : List Nat
  bytes : Nat

/-- Embeds the logic body of `camofoxScreenshotTool`. -/
def screenshotLogic (input : ScreenshotInput) : ToolM ScreenshotOutput := do
  let env ← ToolM.env
  let binary ←
    requestCamofoxBinary "GET"
      ("/tabs/" ++ encodeURIComponent input.tabId ++ "/screenshot") none
      (mkQuery
        [("userId", some (resolveUserId env input.userId)),
         ("fullPage", some (toString input.fullPage))])
  ToolM.pure
    { tabId := input.tabId, mimeType := binary.2.getD "image/png"
      imageBytes := binary.1, bytes := binary.1.length }

def camofoxScreenshotTool : ToolDef ScreenshotInput ScreenshotOutput :=
  { name := "camofox_screenshot", logic := withToolAuth CAMOFOX_SCOPE screenshotLogic }

/-- Input of `camofox_get_stats`. -/
structure StatsInput where
  tabId : String
  userId : Option String

/-- Output of `camofox_get_stats`. -/
structure StatsOutput where
  tabId : String
  url : Option String
  sessionKey : Option String
  listItemId : Option String
  visitedUrls : List String
  toolCalls : Int
  refsCount : Int
  response : Json

/-- Embeds the logic body of `camofoxGetStatsTool`. -/
def getStatsLogic (input : StatsInput) : ToolM StatsOutput := do
  let env ← ToolM.env
  let response ←
    requestCamofoxJson "GET"
      ("/tabs/" ++ encodeURIComponent input.tabId ++ "/stats") none
      (mkQuery [("userId", some (resolveUserId env input.userId))]) []
  let visitedUrls :=
    match jget response "visitedUrls" with
    | some (.arr entries) =>
      entries.filterMap (fun e => match e with | .str s => some s | _ => none)
    | _ => []
  ToolM.pure
    { tabId := input.tabId
      url := optStrTruthy (getString (jget response "url"))
      sessionKey := optStrTruthy (getString (jget response "sessionKey"))
      listItemId := optStrTruthy (getString (jget response "listItemId"))
      visitedUrls := visitedUrls
      toolCalls := (getNumber (jget response "toolCalls")).getD 0
      refsCount := (getNumber (jget response "refsCount")).getD 0
      response := response }

def camofoxGetStatsTool : ToolDef StatsInput StatsOutput :=
  { name := "camofox_get_stats", logic := withToolAuth CAMOFOX_SCOPE getStatsLogic }

/-- Input of `camofox_close_tab_group`. -/
structure CloseGroupInput where
  userId : Option String
  sessionKey : Option String
  listItemId : Option String

/-- Output of `camofox_close_tab_group`. -/
structure CloseGroupOutput where
  userId : String
  sessionKey : String
  response : Json

/-- Embeds the logic body of `camofoxCloseTabGroupTool`: `sessionKey ??
listItemId`, rejected when missing or whitespace-only. -/
def closeTabGroupLogic (input : CloseGroupInput) : ToolM CloseGroupOutput := do
  let sessionKey := input.sessionKey.orElse (fun _ => input.listItemId)
  match sessionKey with
  | some sk =>
    if sk.trim.isEmpty then
      ToolM.throw
        ⟨.InvalidParams, "Provide sessionKey or listItemId to close a tab group."⟩
    else do
      let env ← ToolM.env
      let userId := resolveUserId env input.userId
      let response ←
        requestCamofoxJson "DELETE" ("/tabs/group/" ++ encodeURIComponent sk)
          (some (.obj [("userId", .str userId)])) [] []
      ToolM.pure { userId := userId, sessionKey := sk, response := response }
  | none =>
    ToolM.throw
      ⟨.InvalidParams, "Provide sessionKey or listItemId to close a tab group."⟩

def camofoxCloseTabGroupTool : ToolDef CloseGroupInput CloseGroupOutput :=
  { name := "camofox_close_tab_group"
    logic := withToolAuth CAMOFOX_SCOPE closeTabGroupLogic }

/-- Input of `camofox_close_session`. -/
structure CloseSessionInput where
  userId : Option String

/-- Output of `camofox_close_session`. -/
structure CloseSessionOutput where
  userId : String
  response : Json

/-- Embeds the logic body of `camofoxCloseSessionTool` (no request body). -/
def closeSessionLogic (input : CloseSessionInput) : ToolM CloseSessionOutput := do
  let env ← ToolM.env
  let userId := resolveUserId env input.userId
  let response ←
    requestCamofoxJson "DELETE" ("/sessions/" ++ encodeURIComponent userId)
      none [] []
  ToolM.pure { userId := userId, response := response }

def camofoxCloseSessionTool : ToolDef CloseSessionInput CloseSessionOutput :=
  { name := "camofox_close_session"
    logic := withToolAuth CAMOFOX_SCOPE closeSessionLogic }

/-- Input of `camofox_hover`. -/
structure HoverInput where
  tabId : String
  userId : Option String
  ref : Option String
  selector : Option String

/-- Output of `camofox_hover`. -/
structure HoverOutput where
  tabId : String
  hovered : Bool
  response : Json

/-- Embeds the logic body of `camofoxHoverTool`: requires `ref` or
`selector` before issuing any request. -/
def hoverLogic (input : HoverInput) : ToolM HoverOutput := do
  if !strTruthy input.ref && !strTruthy input.selector then
    ToolM.throw ⟨.InvalidParams, "Provide either ref or selector for hover."⟩
  else do
    let env ← ToolM.env
    let response ←
      requestCamofoxAct input.tabId (resolveUserId env input.userId) "hover"
        (optField "ref" input.ref ++ optField "selector" input.selector)
    ToolM.pure
      { tabId := input.tabId, hovered := (getBoolean (jget response "ok")).getD true
        response := response }

def camofoxHoverTool : ToolDef HoverInput HoverOutput :=
  { name := "camofox_hover", logic := withToolAuth CAMOFOX_SCOPE hoverLogic }

/-- Input of `camofox_scroll_element`. -/
structure ScrollElementInput where
  tabId : String
  userId : Option String
  ref : String

/-- Output of `camofox_scroll_element`. -/
structure ScrollElementOutput where
  tabId : String
  scrolled : Bool
  response : Json

/-- Embeds the logic body of `camofoxScrollElementTool`. -/
def scrollElementLogic (input : ScrollElementInput) : ToolM ScrollElementOutput := do
  let env ← ToolM.env
  let response ←
    requestCamofoxAct input.tabId (resolveUserId env input.userId) "scrollIntoView"
      [("ref", .str input.ref)]
  ToolM.pure
    { tabId := input.tabId, scrolled := (getBoolean (jget response "ok")).getD true
      response := response }

def camofoxScrollElementTool : ToolDef ScrollElementInput ScrollElementOutput :=
  { name := "camofox_scroll_element"
    logic := withToolAuth CAMOFOX_SCOPE scrollElementLogic }

/-- Input of `camofox_wait_for_text`. -/
structure WaitForTextInput where
  tabId : String
  userId : Option String
  text : String

/-- Output of `camofox_wait_for_text`. -/
structure WaitForTextOutput where
  tabId : String
  matched : Bool
  url : Option String
  response : Json

/-- Embeds the logic body of `camofoxWaitForTextTool`. -/
def waitForTextLogic (input : WaitForTextInput) : ToolM WaitForTextOutput := do
  let env ← ToolM.env
  let response ←
    requestCamofoxAct input.tabId (resolveUserId env input.userId) "wait"
      [("text", .str input.text)]
  ToolM.pure
    { tabId := input.tabId, matched := (getBoolean (jget response "ok")).getD true
      url := optStrTruthy (getString (jget response "url")), response := response }

def camofoxWaitForTextTool : ToolDef WaitForTextInput WaitForTextOutput :=
  { name := "camofox_wait_for_text"
    logic := withToolAuth CAMOFOX_SCOPE waitForTextLogic }

/-- Input of `navigate_and_snapshot` (source field `macro` is `macroArg`). -/
structure NavigateAndSnapshotInput where
  tabId : String
  userId : Option String
  sessionKey : Option String
  url : Option String
  macroArg : Option String
  query : Option String
  waitTimeoutMs : Int
  waitForNetwork : Bool
  includeScreenshot : Option Bool
  offset : Option Int

/-- Output of `navigate_and_snapshot`. -/
structure NavigateAndSnapshotOutput where
  tabId : String
  url : String
  snapshot : String
  refsCount : Int
  truncated : Bool
  hasMore : Option Bool
  nextOffset : Option Int
  navigateResponse : Json
  waitResponse : Json
  snapshotResponse : Json

/-- Embeds the logic body of `camofoxNavigateAndSnapshotTool`: requires
`url` or `macro` before issuing any request, then navigates, waits and
snapshots. -/
def navigateAndSnapshotLogic (input : NavigateAndSnapshotInput) :
    ToolM NavigateAndSnapshotOutput := do
  if !strTruthy input.url && !strTruthy input.macroArg then
    ToolM.throw
      ⟨.InvalidParams, "Provide either url or macro for navigate_and_snapshot."⟩
  else do
    let env ← ToolM.env
    let userId := resolveUserId env input.userId
    let navigateResponse ←
      requestCamofoxJson "POST"
        ("/tabs/" ++ encodeURIComponent input.tabId ++ "/navigate")
        (some (.obj
          ([("userId", .str userId)]
            ++ optField "sessionKey" input.sessionKey
            ++ optField "url" input.url
            ++ optField "macro" input.macroArg
            ++ optField "query" input.query)))
        [] []
    let waitResponse ←
      requestCamofoxJson "POST"
        ("/tabs/" ++ encodeURIComponent input.tabId ++ "/wait")
        (some (.obj
          [("userId", .str userId), ("timeout", .num input.waitTimeoutMs),
           ("waitForNetwork", .bool input.waitForNetwork)]))
        [] []
    let snapshotResponse ←
      requestCamofoxJson "GET"
        ("/tabs/" ++ encodeURIComponent input.tabId ++ "/snapshot") none
        (mkQuery
          [("userId", some userId),
           ("includeScreenshot", input.includeScreenshot.map toString),
           ("offset", input.offset.map toString)])
        []
    match optStrTruthy (getString (jget snapshotResponse "url")),
        getString (jget snapshotResponse "snapshot"),
        getNumber (jget snapshotResponse "refsCount"),
        getBoolean (jget snapshotResponse "truncated") with
    | some url, some snapshot, some refsCount, some truncated =>
      ToolM.pure
        { tabId := input.tabId, url := url, snapshot := snapshot
          refsCount := refsCount, truncated := truncated
          hasMore := getBoolean (jget snapshotResponse "hasMore")
          nextOffset := getNumber (jget snapshotResponse "nextOffset")
          navigateResponse := navigateResponse, waitResponse := waitResponse
          snapshotResponse := snapshotResponse }
    | _, _, _, _ =>
      ToolM.throw
        ⟨.SerializationError,
          "navigate_and_snapshot could not parse snapshot response fields."⟩

def camofoxNavigateAndSnapshotTool :
    ToolDef NavigateAndSnapshotInput NavigateAndSnapshotOutput :=
  { name := "navigate_and_snapshot"
    logic := withToolAuth CAMOFOX_SCOPE navigateAndSnapshotLogic }

/-- Input of `scroll_and_snapshot`. -/
structure ScrollAndSnapshotInput where
  tabId : String
  userId : Option String
  direction : String
  amount : Int
  includeScreenshot : Option Bool
  offset : Option Int

/-- Output of `scroll_and_snapshot`. -/
structure ScrollAndSnapshotOutput where
  tabId : String
  url : String
  snapshot : String
  refsCount : Int
  truncated : Bool
  hasMore : Option Bool
  nextOffset : Option Int
  scrollResponse : Json
  snapshotResponse : Json

/-- Embeds the logic body of `camofoxScrollAndSnapshotTool`. -/
def scrollAndSnapshotLogic (input : ScrollAndSnapshotInput) :
    ToolM ScrollAndSnapshotOutput := do
  let env ← ToolM.env
  let userId := resolveUserId env input.userId
  let scrollResponse ←
    requestCamofoxJson "POST"
      ("/tabs/" ++ encodeURIComponent input.tabId ++ "/scroll")
      (some (.obj
        [("userId", .str userId), ("direction", .str input.direction),
         ("amount", .num input.amount)]))
      [] []
  let snapshotResponse ←
    requestCamofoxJson "GET"
      ("/tabs/" ++ encodeURIComponent input.tabId ++ "/snapshot") none
      (mkQuery
        [("userId", some userId),
         ("includeScreenshot", input.includeScreenshot.map toString),
         ("offset", input.offset.map toString)])
      []
  match optStrTruthy (getString (jget snapshotResponse "url")),
      getString (jget snapshotResponse "snapshot"),
      getNumber (jget snapshotResponse "refsCount"),
      getBoolean (jget snapshotResponse "truncated") with
  | some url, some snapshot, some refsCount, some truncated =>
    ToolM.pure
      { tabId := input.tabId, url := url, snapshot := snapshot
        refsCount := refsCount, truncated := truncated
        hasMore := getBoolean (jget snapshotResponse "hasMore")
        nextOffset := getNumber (jget snapshotResponse "nextOffset")
        scrollResponse := scrollResponse, snapshotResponse := snapshotResponse }
  | _, _, _, _ =>
    ToolM.throw
      ⟨.SerializationError,
        "scroll_and_snapshot could not parse snapshot response fields."⟩

def camofoxScrollAndSnapshotTool :
    ToolDef ScrollAndSnapshotInput ScrollAndSnapshotOutput :=
  { name := "scroll_and_snapshot"
    logic := withToolAuth CAMOFOX_SCOPE scrollAndSnapshotLogic }

/-- Input of `type_and_submit` (zod default applied to `submitKey`). -/
structure TypeAndSubmitInput where
  tabId : String
  userId : Option String
  text : String
  ref : Option String
  selector : Option String
  submitKey : String

/-- Output of `type_and_submit`. -/
structure TypeAndSubmitOutput where
  tabId : String
  typed : Bool
  submitKey : String
  typeResponse : Json
  pressResponse : Json

/-- Embeds the logic body of `typeAndSubmitTool`: requires `ref` or
`selector` before issuing any request. -/
def typeAndSubmitLogic (input : TypeAndSubmitInput) : ToolM TypeAndSubmitOutput := do
  if !strTruthy input.ref && !strTruthy input.selector then
    ToolM.throw
      ⟨.InvalidParams, "Provide either ref or selector for type_and_submit."⟩
  else do
    let env ← ToolM.env
    let userId := resolveUserId env input.userId
    let typeResponse ←
      requestCamofoxJson "POST"
        ("/tabs/" ++ encodeURIComponent input.tabId ++ "/type")
        (some (.obj
          ([("userId", .str userId), ("text", .str input.text)]
            ++ optField "ref" input.ref ++ optField "selector" input.selector)))
        [] []
    let pressResponse ←
      requestCamofoxJson "POST"
        ("/tabs/" ++ encodeURIComponent input.tabId ++ "/press")
        (some (.obj [("userId", .str userId), ("key", .str input.submitKey)])) [] []
    ToolM.pure
      { tabId := input.tabId
        typed := (getBoolean (jget typeResponse "ok")).getD true
        submitKey := input.submitKey, typeResponse := typeResponse
        pressResponse := pressResponse }

def typeAndSubmitTool : ToolDef TypeAndSubmitInput TypeAndSubmitOutput :=
  { name := "type_and_submit"
    logic := withToolAuth CAMOFOX_SCOPE typeAndSubmitLogic }

/-- One form field descriptor of `fill_form`. -/
structure FillFormField where
  ref : Option String
  selector : Option String
  value : String

/-- Input of `fill_form`. -/
structure FillFormInput where
  tabId : String
  userId : Option String
  fields : List FillFormField
  submitRef : Option String
  submitSelector : Option String

/-- Output of `fill_form`. -/
structure FillFormOutput where
  tabId : String
  filledCount : Nat
  submitted : Bool
  fieldResponses : List Json
  submitResponse : Option Json

/-- The per-field loop of `fill_form`: each field needs `ref` or
`selector`, then a type request is issued; responses accumulate in order. -/
def fillFormFields (tabId userId : String) :
    List FillFormField → ToolM (List Json)
  | [] => ToolM.pure []
  | field :: rest => do
    if !strTruthy field.ref && !strTruthy field.selector then
      ToolM.throw
        ⟨.InvalidParams, "Each fill_form field requires either ref or selector."⟩
    else do
      let response ←
        requestCamofoxJson "POST"
          ("/tabs/" ++ encodeURIComponent tabId ++ "/type")
          (some (.obj
            ([("userId", .str userId), ("text", .str field.value)]
              ++ optField "ref" field.ref ++ optField "selector" field.selector)))
          [] []
      let more ← fillFormFields tabId userId rest
      ToolM.pure (response :: more)

/-- Embeds the logic body of `fillFormTool`. -/
def fillFormLogic (input : FillFormInput) : ToolM FillFormOutput := do
  let env ← ToolM.env
  let userId := resolveUserId env input.userId
  let fieldResponses ← fillFormFields input.tabId userId input.fields
  let submitResponse ←
    if strTruthy input.submitRef || strTruthy input.submitSelector then do
      let r ←
        requestCamofoxJson "POST"
          ("/tabs/" ++ encodeURIComponent input.tabId ++ "/click")
          (some (.obj
            ([("userId", .str userId)]
              ++ optField "ref" input.submitRef
              ++ optField "selector" input.submitSelector)))
          [] []
      ToolM.pure (some r)
    else ToolM.pure none
  ToolM.pure
    { tabId := input.tabId, filledCount := fieldResponses.length
      submitted := submitResponse.isSome, fieldResponses := fieldResponses
      submitResponse := submitResponse }

def fillFormTool : ToolDef FillFormInput FillFormOutput :=
  { name := "fill_form", logic := withToolAuth CAMOFOX_SCOPE fillFormLogic }

/-- One click instruction of `batch_click`. -/
structure BatchClickEntry where
  ref : Option String
  selector : Option String

/-- Per-action result of `batch_click`. -/
structure BatchClickResultItem where
  index : Nat
  ok : Bool
  response : Option Json
  error : Option String

/-- Input of `batch_click` (zod default applied to `delayMs`). -/
structure BatchClickInput where
  tabId : String
  userId : Option String
  actions : List BatchClickEntry
  delayMs : Int

/-- Output of `batch_click`. -/
structure BatchClickOutput where
  tabId : String
  results : List BatchClickResultItem

/-- The per-action loop of `batch_click`: every action is tried, failures
are caught into the result item; the inter-action `setTimeout` delay is
timing only and has no modelled effect. -/
def batchClickActions (tabId userId : String) (index : Nat) :
    List BatchClickEntry → ToolM (List BatchClickResultItem)
  | [] => ToolM.pure []
  | action :: rest => do
    let outcome ←
      ToolM.attempt (do
        if !strTruthy action.ref && !strTruthy action.selector then
          ToolM.throw
            ⟨.InvalidParams, "Each batch_click action requires either ref or selector."⟩
        else
          requestCamofoxJson "POST"
            ("/tabs/" ++ encodeURIComponent tabId ++ "/click")
            (some (.obj
              ([("userId", .str userId)]
                ++ optField "ref" action.ref ++ optField "selector" action.selector)))
            [] [])
    let item :=
      match outcome with
      | .ok response =>
        { index := index, ok := true, response := some response, error := none :
          BatchClickResultItem }
      | .error e =>
        { index := index, ok := false, response := none, error := some e.message :
          BatchClickResultItem }
    let more ← batchClickActions tabId userId (index + 1) rest
    ToolM.pure (item :: more)

/-- Embeds the logic body of `batchClickTool`. -/
def batchClickLogic (input : BatchClickInput) : ToolM BatchClickOutput := do
  let env ← ToolM.env
  let userId := resolveUserId env input.userId
  let results ← batchClickActions input.tabId userId 0 input.actions
  ToolM.pure { tabId := input.tabId, results := results }

def batchClickTool : ToolDef BatchClickInput BatchClickOutput :=
  { name := "batch_click", logic := withToolAuth CAMOFOX_SCOPE batchClickLogic }

/-- Embeds `WEB_SEARCH_MACROS`: engine name to camofox macro. -/
def WEB_SEARCH_MACROS : List (String × String) :=
  [("google", "@google_search"), ("youtube", "@youtube_search"),
   ("amazon", "@amazon_search"), ("reddit", "@reddit_search"),
   ("wikipedia", "@wikipedia_search"), ("twitter", "@twitter_search"),
   ("yelp", "@yelp_search"), ("spotify", "@spotify_search"),
   ("netflix", "@netflix_search"), ("linkedin", "@linkedin_search"),
   ("instagram", "@instagram_search"), ("tiktok", "@tiktok_search"),
   ("twitch", "@twitch_search")]

/-- Input of `web_search` (the zod enum guarantees the engine is one of
the `WEB_SEARCH_MACROS` keys; default applied to `engine`). -/
structure WebSearchInput where
  query : String
  engine : String
  tabId : Option String
  userId : Option String
  sessionKey : Option String

/-- Output of `web_search` (source field `macro` is `macroArg`). -/
structure WebSearchOutput where
  tabId : String
  createdTab : Bool
  engine : String
  macroArg : String
  query : String
  url : String
  response : Json

/-- Embeds the logic body of `webSearchTool`: creates a tab when no truthy
tab id is given, then navigates with the engine's macro. -/
def webSearchLogic (input : WebSearchInput) : ToolM WebSearchOutput := do
  let env ← ToolM.env
  let userId := resolveUserId env input.userId
  let sessionKey := resolveSessionKey env input.sessionKey
  let macroOfEngine := (WEB_SEARCH_MACROS.lookup input.engine).getD ""
  let tabInfo ←
    match optStrTruthy input.tabId with
    | some t => ToolM.pure (t, false)
    | none => do
      let createResponse ←
        requestCamofoxJson "POST" "/tabs"
          (some (.obj [("userId", .str userId), ("sessionKey", .str sessionKey)]))
          [] []
      match pickTabId createResponse with
      | some createdTabId => ToolM.pure (createdTabId, true)
      | none =>
        ToolM.throw
          ⟨.SerializationError,
            "web_search could not parse tabId from tab creation response."⟩
  let response ←
    requestCamofoxJson "POST"
      ("/tabs/" ++ encodeURIComponent tabInfo.1 ++ "/navigate")
      (some (.obj
        [("userId", .str userId), ("macro", .str macroOfEngine),
         ("query", .str input.query)]))
      [] []
  match getString (jget response "url") with
  | some url =>
    ToolM.pure
      { tabId := tabInfo.1, createdTab := tabInfo.2, engine := input.engine
        macroArg := macroOfEngine, query := input.query, url := url
        response := response }
  | none =>
    ToolM.throw
      ⟨.SerializationError, "web_search could not parse url from navigation response."⟩

def webSearchTool : ToolDef WebSearchInput WebSearchOutput :=
  { name := "web_search", logic := withToolAuth CAMOFOX_SCOPE webSearchLogic }

/-- Input of `camofox_stop_browser`. -/
structure StopInput where
  adminKey : Option String

/-- Output of `camofox_stop_browser`. -/
structure StopOutput where
  stopped : Bool
  response : Json

/-- Embeds the logic body of `camofoxStopBrowserTool`: requires an admin
key (input override or `CAMOFOX_ADMIN_KEY`) before issuing the request. -/
def stopBrowserLogic (input : StopInput) : ToolM StopOutput := do
  let env ← ToolM.env
  let adminKey := input.adminKey.orElse (fun _ => env.camofox.adminKey)
  if !strTruthy adminKey then
    ToolM.throw
      ⟨.ConfigurationError, "CAMOFOX_ADMIN_KEY is required for camofox_stop_browser."⟩
  else do
    let response ←
      requestCamofoxJson "POST" "/stop" none []
        [("x-admin-key", adminKey.getD "")]
    ToolM.pure
      { stopped :=
          ((getBoolean (jget response "stopped")).orElse
            (fun _ => getBoolean (jget response "ok"))).getD false
        response := response }

def camofoxStopBrowserTool : ToolDef StopInput StopOutput :=
  { name := "camofox_stop_browser"
    logic := withToolAuth CAMOFOX_SCOPE stopBrowserLogic }

/-- Input of `camofox_youtube_transcript`. -/
structure YoutubeTranscriptInput where
  url : String
  languages : Option (List String)

/-- Output of `camofox_youtube_transcript`. -/
structure YoutubeTranscriptOutput where
  status : Option String
  transcript : Option String
  totalWords : Option Int
  response : Json

/-- Embeds the logic body of `camofoxYoutubeTranscriptTool`; note that a
present `languages` array is always truthy, even when empty. -/
def youtubeTranscriptLogic (input : YoutubeTranscriptInput) :
    ToolM YoutubeTranscriptOutput := do
  let response ←
    requestCamofoxJson "POST" "/youtube/transcript"
      (some (.obj
        ([("url", .str input.url)]
          ++ (match input.languages with
              | some ls => [("languages", Json.arr (ls.map Json.str))]
              | none => []))))
      [] []
  ToolM.pure
    { status := optStrTruthy (getString (jget response "status"))
      transcript := optStrTruthy (getString (jget response "transcript"))
      totalWords := getNumber (jget response "total_words")
      response := response }

def camofoxYoutubeTranscriptTool :
    ToolDef YoutubeTranscriptInput YoutubeTranscriptOutput :=
  { name := "camofox_youtube_transcript"
    logic := withToolAuth CAMOFOX_SCOPE youtubeTranscriptLogic }

/-! ### Compatibility aliases (reusing the wrapped logic of the originals) -/

def serverStatusTool : ToolDef HealthInput HealthOutput :=
  { name := "server_status", logic := camofoxHealthTool.logic }

def listTabsTool : ToolDef ListTabsInput ListTabsOutput :=
  { name := "list_tabs", logic := camofoxListTabsTool.logic }

def createTabTool : ToolDef CreateTabInput CreateTabOutput :=
  { name := "create_tab", logic := camofoxCreateTabTool.logic }

def navigateTool : ToolDef NavigateTabInput NavigateTabOutput :=
  { name := "navigate", logic := camofoxNavigateTabTool.logic }

def snapshotTool : ToolDef SnapshotInput SnapshotOutput :=
  { name := "snapshot", logic := camofoxGetSnapshotTool.logic }

def typeTextTool : ToolDef TypeInput TypeOutput :=
  { name := "type_text", logic := camofoxTypeTool.logic }

def closeTabTool : ToolDef CloseTabInput CloseTabOutput :=
  { name := "close_tab", logic := camofoxCloseTabTool.logic }

def goBackTool : ToolDef HistoryNavInput HistoryNavOutput :=
  { name := "go_back", logic := camofoxBackTool.logic }

def goForwardTool : ToolDef HistoryNavInput HistoryNavOutput :=
  { name := "go_forward", logic := camofoxForwardTool.logic }

def refreshTool : ToolDef HistoryNavInput HistoryNavOutput :=
  { name := "refresh", logic := camofoxRefreshTool.logic }

/-! ## Task Manager (spec-modelled)

The implementation (`src/mcp-server/tasks/core/taskManager.ts`,
`storageBackedTaskStore.ts`, `taskTypes.ts`) is not among the provided
sources; the state machine below is modelled from §3 "Task Record",
§4.5 and §5 of the specification. -/

/-- Modelled from the spec: the task states of §4.5,
`Pending → Running → (Completed, Failed, Cancelled)`. -/
inductive TaskStatus where
  | pending
  | running
  | completed
  | failed
  | cancelled
deriving DecidableEq

/-- Completed, Failed and Cancelled are the terminal states. -/
def TaskStatus.isTerminal : TaskStatus → Bool
  | .completed => true
  | .failed => true
  | .cancelled => true
  | _ => false

/-- Position of a status along the state machine; transitions never
decrease it. -/
def TaskStatus.rank : TaskStatus → Nat
  | .pending => 0
  | .running => 1
  | _ => 2

/-- Modelled from the spec: the Task Record of §3 — identifier, status,
timestamps, originating subject, opaque input, result payload (terminal
success only), error detail (terminal failure only), cancellation flag. -/
structure TaskRecord where
  taskId : Nat
  status : TaskStatus
  createdAt : Nat
  updatedAt : Nat
  subject : String
  input : Json
  result : Option Json
  errorDetail : Option String
  cancelRequested : Bool

/-- Modelled from the spec: the Task Manager's process-scoped state — the
task table, a fresh-identifier counter, and a logical clock used for the
created/updated timestamps. -/
structure TMState where
  tasks : List TaskRecord
  nextId : Nat
  clock : Nat

/-- The empty Task Manager state at startup. -/
def TM.init : TMState := { tasks := [], nextId := 0, clock := 0 }

/-- Modelled from the spec: `get(taskId) -> TaskRecord | NotFound`. -/
def TM.getTask (s : TMState) (id : Nat) : Option TaskRecord :=
  s.tasks.find? (fun r => r.taskId == id)

/-- Applies `f` to the record with the given identifier. -/
def TM.update (s : TMState) (id : Nat) (f : TaskRecord → TaskRecord) : TMState :=
  { s with
    tasks := s.tasks.map (fun r => if r.taskId == id then f r else r)
    clock := s.clock + 1 }

/-- Modelled from the spec: `create(input) -> TaskRecord (Pending)` — a
fresh identifier, Pending status, empty result and error, timestamps from
the clock. -/
def TM.create (s : TMState) (input : Json) (subject : String) :
    TaskRecord × TMState :=
  let r : TaskRecord :=
    { taskId := s.nextId, status := .pending, createdAt := s.clock
      updatedAt := s.clock, subject := subject, input := input, result := none
      errorDetail := none, cancelRequested := false }
  (r, { tasks := r :: s.tasks, nextId := s.nextId + 1, clock := s.clock + 1 })

/-- Outcome of the claim transition. -/
inductive ClaimResult where
  | ok
  | notFound
  | conflict
deriving DecidableEq

/-- Modelled from the spec: the worker claim `Pending → Running` of §4.5,
an atomic conditional transition (conditional claim write / in-process
mutual-exclusion gate): it succeeds only on a Pending task, any other
state is a conflict and leaves the state untouched. -/
def TM.claim (s : TMState) (id : Nat) : ClaimResult × TMState :=
  match TM.getTask s id with
  | none => (.notFound, s)
  | some r =>
    if r.status = .pending then
      (.ok,
        TM.update s id (fun t => { t with status := .running, updatedAt := s.clock }))
    else (.conflict, s)

/-- Modelled from the spec: `Running → Completed` — the worker reports a
terminal success; the first report wins and any other state is ignored
(idempotent finalize). -/
def TM.finishOk (s : TMState) (id : Nat) (res : Json) : TMState :=
  match TM.getTask s id with
  | some r =>
    if r.status = .running then
      TM.update s id
        (fun t =>
          { t with status := .completed, result := some res, updatedAt := s.clock })
    else s
  | none => s

/-- Modelled from the spec: `Running → Failed` — the worker reports a
terminal failure (also used by the watchdog of §7); idempotent like
`TM.finishOk`. -/
def TM.finishErr (s : TMState) (id : Nat) (err : String) : TMState :=
  match TM.getTask s id with
  | some r =>
    if r.status = .running then
      TM.update s id
        (fun t =>
          { t with
              status := .failed
              errorDetail := some err
              updatedAt := s.clock })
    else s
  | none => s

/-- Outcome of `cancel`. -/
inductive CancelResult where
  | ok
  | notFound
  | alreadyTerminal
deriving DecidableEq

/-- Modelled from the spec: `cancel(taskId) -> ok | NotFound |
AlreadyTerminal` of §4.5 — a Pending task is cancelled immediately (the
error detail records the cancellation so that a terminal record populates
exactly one of result/error, §3), a Running task only gets its cooperative
cancellation flag set, and a terminal task is left untouched. -/
def TM.cancel (s : TMState) (id : Nat) : CancelResult × TMState :=
  match TM.getTask s id with
  | none => (.notFound, s)
  | some r =>
    if r.status = .pending then
      (.ok,
        TM.update s id
          (fun t =>
            { t with
                status := .cancelled
                errorDetail := some "Task cancelled"
                cancelRequested := true
                updatedAt := s.clock }))
    else if r.status = .running then
      (.ok,
        TM.update s id
          (fun t => { t with cancelRequested := true, updatedAt := s.clock }))
    else (.alreadyTerminal, s)

/-- Modelled from the spec: the worker observes the cancellation flag at a
checkpoint (§5, cooperative cancellation) and moves a Running task with
the flag set to Cancelled. -/
def TM.observeCancel (s : TMState) (id : Nat) : TMState :=
  match TM.getTask s id with
  | some r =>
    if r.status = .running && r.cancelRequested then
      TM.update s id
        (fun t =>
          { t with
              status := .cancelled
              errorDetail := some "Task cancelled"
              updatedAt := s.clock })
    else s
  | none => s

/-- One Task Manager operation, for reasoning about every reachable state. -/
inductive TMOp where
  | create (input : Json) (subject : String)
  | claim (id : Nat)
  | finishOk (id : Nat) (res : Json)
  | finishErr (id : Nat) (err : String)
  | cancel (id : Nat)
  | observeCancel (id : Nat)

/-- Applies one operation (discarding its result). -/
def TM.applyOp (op : TMOp) (s : TMState) : TMState :=
  match op with
  | .create input subject => (TM.create s input subject).2
  | .claim id => (TM.claim s id).2
  | .finishOk id res => TM.finishOk s id res
  | .finishErr id err => TM.finishErr s id err
  | .cancel id => (TM.cancel s id).2
  | .observeCancel id => TM.observeCancel s id

/-- The state after a sequence of operations from startup. -/
def TM.run (ops : List TMOp) : TMState :=
  ops.foldl (fun s op => TM.applyOp op s) TM.init

/-- Well-formedness of a task record with respect to its status: result
and error are absent while the task is live, and exactly the matching one
is populated in a terminal state. -/
def TaskRecord.wf (r : TaskRecord) : Prop :=
  match r.status with
  | .pending => r.result = none ∧ r.errorDetail = none
  | .running => r.result = none ∧ r.errorDetail = none
  | .completed => r.result.isSome ∧ r.errorDetail = none
  | .failed => r.result = none ∧ r.errorDetail.isSome
  | .cancelled => r.result = none ∧ r.errorDetail.isSome

/-! ## Storage failure handling (spec-modelled) -/

/-- Modelled from the spec: the Storage Abstraction failure modes of §4.1. -/
inductive StorageErr where
  | notFound
  | versionConflict
  | backendUnavailable
  | invalid
deriving DecidableEq

/-- Modelled from the spec: the bounded retry of §7 — attempt the
persistence write; on `BackendUnavailable` retry with the next attempt, up
to the given attempt budget, surfacing `BackendUnavailable` when the
budget is exhausted; any other failure, and any success, surfaces
immediately.  `backend k` is the outcome of the `k`-th attempt. -/
def attemptPersist {α : Type} (backend : Nat → Except StorageErr α) :
    Nat → Nat → Except StorageErr α
  | _, 0 => .error .backendUnavailable
  | start, fuel + 1 =>
    match backend start with
    | .error .backendUnavailable => attemptPersist backend (start + 1) fuel
    | r => r

/-- Modelled from the spec: task creation persists through the Storage
Abstraction before returning success (§4.5); the persistence write uses
the bounded retry, and a failed write is surfaced, never reported as a
created task. -/
def TM.createPersisted (backend : Nat → Except StorageErr Unit)
    (maxAttempts : Nat) (s : TMState) (input : Json) (subject : String) :
    Except StorageErr (TaskRecord × TMState) :=
  match attemptPersist backend 0 maxAttempts with
  | .ok _ => .ok (TM.create s input subject)
  | .error e => .error e

/-! ## Session Store (spec-modelled)

The implementation (`transports/http/sessionStore.ts`) is not among the
provided sources; the store below is modelled from §3 "Session" and §4.4
of the specification. -/

/-- Modelled from the spec: a Session record of §3 — identifier, creation
timestamp and last-activity timestamp.  Identifiers are modelled as
naturals; the unguessability requirement of §4.4 is about entropy and is
not expressible in this embedding.  The transport connection handle is
owned by the transport and not modelled. -/
structure Session where
  sessionId : Nat
  createdAt : Nat
  lastActivity : Nat
deriving DecidableEq

/-- Modelled from the spec: the Session Store state — the session table, a
fresh-identifier counter, and a logical clock (every operation advances
it, so timestamps taken from it never run backwards). -/
structure SSState where
  sessions : List Session
  nextId : Nat
  clock : Nat
deriving DecidableEq

/-- The empty Session Store at startup. -/
def SS.init : SSState := { sessions := [], nextId := 0, clock := 0 }

/-- Modelled from the spec: `get(sessionId) -> Session | NotFound`. -/
def SS.get (s : SSState) (id : Nat) : Option Session :=
  s.sessions.find? (fun r => r.sessionId == id)

/-- Modelled from the spec: `create() -> new Session` — fresh identifier,
both timestamps from the clock. -/
def SS.create (s : SSState) : Session × SSState :=
  let r : Session :=
    { sessionId := s.nextId, createdAt := s.clock, lastActivity := s.clock }
  (r, { sessions := r :: s.sessions, nextId := s.nextId + 1, clock := s.clock + 1 })

/-- Outcome of `touch`. -/
inductive TouchResult where
  | ok
  | notFound
deriving DecidableEq

/-- Modelled from the spec: `touch(sessionId) -> ok | NotFound` — refreshes
the last-activity timestamp of an existing session to the current clock. -/
def SS.touch (s : SSState) (id : Nat) : TouchResult × SSState :=
  match SS.get s id with
  | none => (.notFound, s)
  | some _ =>
    (.ok,
      { s with
        sessions :=
          s.sessions.map
            (fun r =>
              if r.sessionId == id then { r with lastActivity := s.clock } else r)
        clock := s.clock + 1 })

/-- Modelled from the spec: `remove(sessionId) -> ok`. -/
def SS.remove (s : SSState) (id : Nat) : SSState :=
  { s with
    sessions := s.sessions.filter (fun r => !(r.sessionId == id))
    clock := s.clock + 1 }

/-- Modelled from the spec: the idle sweep of §4.4 — evicts every session
whose last activity predates the idle threshold. -/
def SS.sweep (s : SSState) (idleThreshold : Nat) : SSState :=
  { s with
    sessions :=
      s.sessions.filter (fun r => s.clock ≤ r.lastActivity + idleThreshold)
    clock := s.clock + 1 }

/-- One Session Store operation, for reasoning about reachable states. -/
inductive SSOp where
  | create
  | touch (id : Nat)
  | remove (id : Nat)
  | sweep (idleThreshold : Nat)

/-- Applies one operation (discarding its result). -/
def SS.applyOp (op : SSOp) (s : SSState) : SSState :=
  match op with
  | .create => (SS.create s).2
  | .touch id => (SS.touch s id).2
  | .remove id => SS.remove s id
  | .sweep t => SS.sweep s t

/-- The state after a sequence of operations from startup. -/
def SS.run (ops : List SSOp) : SSState :=
  ops.foldl (fun s op => SS.applyOp op s) SS.init

/-- Clock soundness: no session's last-activity timestamp is ahead of the
store clock. -/
def SSState.wf (s : SSState) : Prop :=
  ∀ r ∈ s.sessions, r.lastActivity ≤ s.clock

/-- Well-formedness of the Task Manager state: every record is
status-consistent (`TaskRecord.wf`), identifiers are below the fresh
counter, and identifiers are pairwise distinct. -/
def TMState.wfState (s : TMState) : Prop :=
  (∀ r ∈ s.tasks, r.wf) ∧ (∀ r ∈ s.tasks, r.taskId < s.nextId) ∧
    s.tasks.Pairwise (fun a b => a.taskId ≠ b.taskId)

/-- A tool is blocked by the authentication gate: whenever `authGate` fails
on the tool's required scope set `CAMOFOX_SCOPE`, the tool's logic returns
that very failure and issues no HTTP request (the request log is returned
untouched), for every environment, credential, input and log. -/
def gateBlocks {I O : Type} (t : ToolDef I O) : Prop :=
  ∀ (env : Env) (cred : Option String) (input : I) (log : List CamofoxRequest)
    (e : AuthFailure),
    authGate env.validate cred CAMOFOX_SCOPE = .error e →
    t.logic cred input env log = (.error (authFailureErr e), log)

/-- The admissibility predicate of the C10 claim, written from its words:
a non-array object with a non-empty string `name`, a non-empty string
`domain`, and a string `value`. -/
def cookieAdmissible (j : Json) : Bool :=
  isRecord j &&
    (match getString (jget j "name") with
     | some s => !s.isEmpty
     | none => false) &&
    (match getString (jget j "domain") with
     | some s => !s.isEmpty
     | none => false) &&
    (getString (jget j "value")).isSome

/-- The expected normalized cookie for an admissible entry, written from
the claim (expiry from the numeric `expires` value, falling back to the
numeric `expirationDate` value; `sameSite` kept only when valid) and, for
the fields the claim leaves implicit, from the source conventions. -/
def expectedCookie (j : Json) : CamofoxCookie :=
  { name := (getString (jget j "name")).getD ""
    value := (getString (jget j "value")).getD ""
    domain := (getString (jget j "domain")).getD ""
    path := optStrTruthy (getString (jget j "path"))
    expires :=
      (getNumber (jget j "expires")).orElse
        (fun _ => getNumber (jget j "expirationDate"))
    httpOnly := getBoolean (jget j "httpOnly")
    secure := getBoolean (jget j "secure")
    sameSite :=
      match getString (jget j "sameSite") with
      | some s => if s = "Strict" || s = "Lax" || s = "None" then some s else none
      | none => none }

/-- The pure outcome of the file-cookie phase of `importCookiesIfProvided`:
no path (or a whitespace-only path) yields no cookies; otherwise the file
is loaded and normalized, possibly failing. -/
def fileLoadResult (env : Env) (cookiesFilePath : Option String) :
    Except McpErr (List CamofoxCookie) :=
  match cookiesFilePath.map String.trim with
  | some p => if p.isEmpty then .ok [] else (loadCookiesFromFile p env []).1
  | none => .ok []

/-- The continuation of `importCookiesIfProvided` after the file phase,
with the file outcome abstracted: used to state and prove C9 (the file
phase never touches the request log, so the call is equal to this body at
`fileLoadResult`). -/
def importCookiesBody (userId : String) (cookies : Option (List CamofoxCookie))
    (env : Env) (log : List CamofoxRequest)
    (fileRes : Except McpErr (List CamofoxCookie)) :
    Except McpErr ImportResult × List CamofoxRequest :=
  match fileRes with
  | .error e => (.error e, log)
  | .ok fileCookies =>
    let allCookies := (cookies.getD []) ++ fileCookies
    if allCookies.isEmpty then
      (.ok { imported := false, count := 0, response := none }, log)
    else if !strTruthy env.camofox.apiKey then
      (.error
        ⟨.ConfigurationError, "CAMOFOX_API_KEY is required to import cookies."⟩,
        log)
    else
      match
        requestCamofoxJson "POST"
          ("/sessions/" ++ encodeURIComponent userId ++ "/cookies")
          (some (.obj [("cookies", .arr (allCookies.map cookieToJson))]))
          []
          [("Authorization", "Bearer " ++ (env.camofox.apiKey.getD ""))]
          env log
      with
      | (.ok resp, log3) =>
        (.ok
          { imported := true, count := allCookies.length
            response := some resp },
          log3)
      | (.error e, log3) => (.error e, log3)

/-- A concrete environment for witnesses: default configuration, a
validator that rejects every credential, trivial backends. -/
def sampleEnv : Env :=
  { camofox :=
      { baseUrl := "http://127.0.0.1:9377", timeoutMs := 30000
        defaultUserId := "default-user", defaultSessionKey := "default-session"
        apiKey := none, adminKey := none }
    validate := fun _ => none
    http := fun _ _ => Json.obj []
    httpBinary := fun _ _ => ([], none)
    readFile := fun _ => none }

/-- A concrete authorization context holding the camofox scope. -/
def sampleCtx : AuthorizationContext :=
  { subject := "caller", scopes := ["tool:camofox:use"], expiresAt := 0
    claims := [] }

/-- `sampleEnv` with a validator accepting every credential with the
camofox scope. -/
def sampleEnvAuthed : Env := { sampleEnv with validate := fun _ => some sampleCtx }

/-- `sampleEnvAuthed` with an API key configured. -/
def sampleEnvApiKey : Env :=
  { sampleEnvAuthed with
    camofox := { sampleEnvAuthed.camofox with apiKey := some "secret-key" } }

/-! ## Helper lemmas -/

theorem find?_map_of_pred_inv {α : Type} (p : α → Bool) (f : α → α)
    (hpf : ∀ a, p (f a) = p a) :
    ∀ xs : List α, (xs.map f).find? p = (xs.find? p).map f
  | [] => rfl
  | a :: tl => by
    by_cases h : p a = true
    · rw [List.map_cons, List.find?_cons_of_pos _ (by rw [hpf]; exact h),
        List.find?_cons_of_pos _ h]
      rfl
    · rw [List.map_cons,
        List.find?_cons_of_neg _ (by rw [hpf]; exact Bool.not_eq_true _ ▸ h),
        List.find?_cons_of_neg _ h, find?_map_of_pred_inv p f hpf tl]

theorem find?_keyed_unique {α : Type} (key : α → Nat) (id : Nat) :
    ∀ xs : List α, xs.Pairwise (fun a b => key a ≠ key b) →
      ∀ r a, xs.find? (fun x => key x == id) = some r → a ∈ xs → key a = id →
        a = r
  | [], _, r, a, hfind, hmem, _ => by cases hmem
  | x :: tl, hpw, r, a, hfind, hmem, hkey => by
    rcases List.pairwise_cons.mp hpw with ⟨hx, htl⟩
    by_cases hxk : key x = id
    · rw [List.find?_cons_of_pos _ (by simpa using hxk)] at hfind
      cases hfind
      rcases List.mem_cons.mp hmem with rfl | hmem2
      · rfl
      · exact absurd (hkey.trans hxk.symm) (fun h => hx a hmem2 h.symm)
    · rw [List.find?_cons_of_neg _ (by simpa using hxk)] at hfind
      rcases List.mem_cons.mp hmem with rfl | hmem2
      · exact absurd hkey hxk
      · exact find?_keyed_unique key id tl htl r a hfind hmem2 hkey

theorem TM.getTask_update (s : TMState) (idu : Nat) (f : TaskRecord → TaskRecord)
    (hf : ∀ t, (f t).taskId = t.taskId) (id : Nat) :
    TM.getTask (TM.update s idu f) id
      = (TM.getTask s id).map (fun r => if r.taskId == idu then f r else r) := by
  unfold TM.getTask TM.update
  exact
    find?_map_of_pred_inv _ _
      (fun a => by
        by_cases h : a.taskId == idu
        · rw [if_pos h, hf]
        · rw [if_neg h])
      s.tasks

theorem TM.mem_update {r : TaskRecord} {s : TMState} {idu : Nat}
    {f : TaskRecord → TaskRecord} (hmem : r ∈ (TM.update s idu f).tasks) :
    ∃ a ∈ s.tasks, r = if a.taskId == idu then f a else a := by
  unfold TM.update at hmem
  rcases List.mem_map.mp hmem with ⟨a, ha, hra⟩
  exact ⟨a, ha, hra.symm⟩

theorem TM.wfState_update (s : TMState) (idu : Nat) (f : TaskRecord → TaskRecord)
    (r : TaskRecord) (h : TMState.wfState s) (hr : TM.getTask s idu = some r)
    (hf : ∀ t, (f t).taskId = t.taskId) (hwf : (f r).wf) :
    TMState.wfState (TM.update s idu f) := by
  obtain ⟨hall, hids, hpw⟩ := h
  refine ⟨?_, ?_, ?_⟩
  · intro t ht
    rcases TM.mem_update ht with ⟨a, ha, hta⟩
    by_cases hk : a.taskId == idu
    · have hr2 : s.tasks.find? (fun x => x.taskId == idu) = some r := hr
      have : a = r :=
        find?_keyed_unique (fun x => x.taskId) idu s.tasks hpw r a hr2 ha
          (by simpa using hk)
      subst this
      rw [hta, if_pos hk]
      exact hwf
    · rw [hta, if_neg hk]
      exact hall a ha
  · intro t ht
    rcases TM.mem_update ht with ⟨a, ha, hta⟩
    have : t.taskId = a.taskId := by
      rw [hta]; by_cases hk : a.taskId == idu <;> simp [hk, hf]
    rw [TM.update]
    simpa [this] using hids a ha
  · unfold TM.update
    exact
      hpw.map _
        (fun a b hab => by
          by_cases hka : a.taskId == idu <;> by_cases hkb : b.taskId == idu <;>
            simp [hka, hkb, hf, hab])

theorem TM.getTask_mem {s : TMState} {id : Nat} {r : TaskRecord}
    (hr : TM.getTask s id = some r) : r ∈ s.tasks :=
  List.mem_of_find?_eq_some hr

theorem TM.getTask_taskId {s : TMState} {id : Nat} {r : TaskRecord}
    (hr : TM.getTask s id = some r) : r.taskId = id := by
  have := List.find?_some hr
  simpa using this

theorem TM.wfState_init : TMState.wfState TM.init := by
  refine ⟨?_, ?_, ?_⟩ <;> simp [TM.init]

theorem TM.wfState_applyOp (op : TMOp) (s : TMState) (h : TMState.wfState s) :
    TMState.wfState (TM.applyOp op s) := by
  obtain ⟨hall, hids, hpw⟩ := h
  cases op with
  | create input subject =>
    refine ⟨?_, ?_, ?_⟩
    · intro t ht
      rcases List.mem_cons.mp ht with rfl | ht2
      · simp [TaskRecord.wf]
      · exact hall t ht2
    · intro t ht
      rcases List.mem_cons.mp ht with rfl | ht2
      · simp [TM.applyOp, TM.create]
      · have := hids t ht2
        simp only [TM.applyOp, TM.create]
        omega
    · refine List.Pairwise.cons ?_ hpw
      intro b hb
      have := hids b hb
      simp only
      omega
  | claim id =>
    show TMState.wfState (TM.claim s id).2
    rcases hq : TM.getTask s id with _ | q
    · simpa [TM.claim, hq] using ⟨hall, hids, hpw⟩
    · by_cases hqs : q.status = .pending
      · have hqwf := hall q (TM.getTask_mem hq)
        rw [TaskRecord.wf, hqs] at hqwf
        simp only [TM.claim, hq, hqs, if_true]
        exact
          TM.wfState_update s id _ q ⟨hall, hids, hpw⟩ hq (fun t => rfl)
            (by rw [TaskRecord.wf]; exact hqwf)
      · simpa [TM.claim, hq, hqs] using ⟨hall, hids, hpw⟩
  | finishOk id res =>
    show TMState.wfState (TM.finishOk s id res)
    rcases hq : TM.getTask s id with _ | q
    · simpa [TM.finishOk, hq] using ⟨hall, hids, hpw⟩
    · by_cases hqs : q.status = .running
      · have hqwf := hall q (TM.getTask_mem hq)
        rw [TaskRecord.wf, hqs] at hqwf
        simp only [TM.finishOk, hq, hqs, if_true]
        exact
          TM.wfState_update s id _ q ⟨hall, hids, hpw⟩ hq (fun t => rfl)
            (by rw [TaskRecord.wf]; exact ⟨rfl, hqwf.2⟩)
      · simpa [TM.finishOk, hq, hqs] using ⟨hall, hids, hpw⟩
  | finishErr id err =>
    show TMState.wfState (TM.finishErr s id err)
    rcases hq : TM.getTask s id with _ | q
    · simpa [TM.finishErr, hq] using ⟨hall, hids, hpw⟩
    · by_cases hqs : q.status = .running
      · have hqwf := hall q (TM.getTask_mem hq)
        rw [TaskRecord.wf, hqs] at hqwf
        simp only [TM.finishErr, hq, hqs, if_true]
        exact
          TM.wfState_update s id _ q ⟨hall, hids, hpw⟩ hq (fun t => rfl)
            (by rw [TaskRecord.wf]; exact ⟨hqwf.1, rfl⟩)
      · simpa [TM.finishErr, hq, hqs] using ⟨hall, hids, hpw⟩
  | cancel id =>
    show TMState.wfState (TM.cancel s id).2
    rcases hq : TM.getTask s id with _ | q
    · simpa [TM.cancel, hq] using ⟨hall, hids, hpw⟩
    · by_cases hqp : q.status = .pending
      · have hqwf := hall q (TM.getTask_mem hq)
        rw [TaskRecord.wf, hqp] at hqwf
        simp only [TM.cancel, hq, hqp, if_true]
        exact
          TM.wfState_update s id _ q ⟨hall, hids, hpw⟩ hq (fun t => rfl)
            (by rw [TaskRecord.wf]; exact ⟨hqwf.1, rfl⟩)
      · by_cases hqr : q.status = .running
        · have hqwf := hall q (TM.getTask_mem hq)
          rw [TaskRecord.wf, hqr] at hqwf
          simp only [TM.cancel, hq, hqp, hqr, if_false, if_true]
          exact
            TM.wfState_update s id _ q ⟨hall, hids, hpw⟩ hq (fun t => rfl)
              (by rw [TaskRecord.wf, hqr]; exact hqwf)
        · simpa [TM.cancel, hq, hqp, hqr] using ⟨hall, hids, hpw⟩
  | observeCancel id =>
    show TMState.wfState (TM.observeCancel s id)
    rcases hq : TM.getTask s id with _ | q
    · simpa [TM.observeCancel, hq] using ⟨hall, hids, hpw⟩
    · by_cases hqs : q.status = .running ∧ q.cancelRequested = true
      · have hqwf := hall q (TM.getTask_mem hq)
        rw [TaskRecord.wf, hqs.1] at hqwf
        have hcond : (q.status = .running && q.cancelRequested) = true := by
          simp [hqs.1, hqs.2]
        simp only [TM.observeCancel, hq, hcond, if_true]
        exact
          TM.wfState_update s id _ q ⟨hall, hids, hpw⟩ hq (fun t => rfl)
            (by rw [TaskRecord.wf]; exact ⟨hqwf.1, rfl⟩)
      · have hcond : (q.status = .running && q.cancelRequested) = false := by
          rcases Decidable.not_and_iff_or_not.mp hqs with h1 | h2
          · simp [h1]
          · simp [Bool.not_eq_true] at h2
            simp [h2]
        simpa [TM.observeCancel, hq, hcond] using ⟨hall, hids, hpw⟩

theorem TM.wfState_run (ops : List TMOp) : TMState.wfState (TM.run ops) := by
  suffices h :
      ∀ (l : List TMOp) (s : TMState), TMState.wfState s →
        TMState.wfState (l.foldl (fun t op => TM.applyOp op t) s) by
    exact h ops TM.init TM.wfState_init
  intro l
  induction l with
  | nil => intro s hs; exact hs
  | cons op tl ih =>
    intro s hs
    exact ih (TM.applyOp op s) (TM.wfState_applyOp op s hs)

theorem TM.getTask_after_update {s : TMState} {idu : Nat}
    {f : TaskRecord → TaskRecord} {id : Nat} {r r' : TaskRecord}
    (hr : TM.getTask s id = some r)
    (hr' : TM.getTask (TM.update s idu f) id = some r')
    (hf : ∀ t, (f t).taskId = t.taskId) :
    r' = if r.taskId == idu then f r else r := by
  rw [TM.getTask_update s idu f hf id, hr] at hr'
  exact (Option.some.inj hr').symm

/-- C1: for every task record reachable by a sequence of Task Manager
operations, once its status is terminal exactly one of the result payload
and the error detail is populated; and no single operation ever moves a
status backwards along `Pending → Running → (Completed, Failed,
Cancelled)` — in particular a terminal record is left exactly as it is. -/
theorem taskManager_terminal_state_invariant :
    (∀ (ops : List TMOp) (id : Nat) (r : TaskRecord),
        TM.getTask (TM.run ops) id = some r → r.status.isTerminal = true →
        (r.result.isSome = true ∧ r.errorDetail = none) ∨
          (r.result = none ∧ r.errorDetail.isSome = true)) ∧
    (∀ (ops : List TMOp) (op : TMOp) (id : Nat) (r r' : TaskRecord),
        TM.getTask (TM.run ops) id = some r →
        TM.getTask (TM.applyOp op (TM.run ops)) id = some r' →
        r.status.rank ≤ r'.status.rank ∧ (r.status.isTerminal = true → r' = r)) := by
  constructor
  · intro ops id r hr hterm
    have hwf := (TM.wfState_run ops).1 r (TM.getTask_mem hr)
    rw [TaskRecord.wf] at hwf
    rcases hst : r.status with _ | _ | _ | _ | _ <;> rw [hst] at hwf
    · rw [hst] at hterm; simp [TaskStatus.isTerminal] at hterm
    · rw [hst] at hterm; simp [TaskStatus.isTerminal] at hterm
    · exact Or.inl hwf
    · exact Or.inr hwf
    · exact Or.inr hwf
  · intro ops op id r r' hr hr'
    have hwfS := TM.wfState_run ops
    have hrid := TM.getTask_taskId hr
    cases op with
    | create input subject =>
      have hlt : r.taskId < (TM.run ops).nextId :=
        hwfS.2.1 r (TM.getTask_mem hr)
      have hne : ((TM.run ops).nextId == id) = false := by
        simp only [beq_eq_false_iff_ne, ne_eq]
        omega
      have hr'2 : TM.getTask (TM.run ops) id = some r' := by
        simpa [TM.applyOp, TM.create, TM.getTask, List.find?_cons, hne] using hr'
      have : r' = r := by rw [hr] at hr'2; exact (Option.some.inj hr'2).symm
      subst this
      exact ⟨le_refl _, fun _ => rfl⟩
    | claim idu =>
      rcases hq : TM.getTask (TM.run ops) idu with _ | q
      · simp only [TM.applyOp, TM.claim, hq] at hr'
        rw [hr] at hr'
        cases Option.some.inj hr'
        exact ⟨le_refl _, fun _ => rfl⟩
      · by_cases hqs : q.status = .pending
        · simp only [TM.applyOp, TM.claim, hq, hqs, if_true] at hr'
          have hr'eq := TM.getTask_after_update hr hr' (fun t => rfl)
          by_cases hidm : r.taskId == idu
          · have hidu : idu = id := by
              have : r.taskId = idu := by simpa using hidm
              omega
            subst hidu
            rw [hr] at hq
            cases Option.some.inj hq
            rw [hr'eq, if_pos hidm]
            refine ⟨?_, ?_⟩
            · rw [hqs]; simp [TaskStatus.rank]
            · intro hterm; rw [hqs] at hterm
              simp [TaskStatus.isTerminal] at hterm
          · rw [hr'eq, if_neg hidm]
            exact ⟨le_refl _, fun _ => rfl⟩
        · simp only [TM.applyOp, TM.claim, hq, hqs, if_false] at hr'
          rw [hr] at hr'
          cases Option.some.inj hr'
          exact ⟨le_refl _, fun _ => rfl⟩
    | finishOk idu res =>
      rcases hq : TM.getTask (TM.run ops) idu with _ | q
      · simp only [TM.applyOp, TM.finishOk, hq] at hr'
        rw [hr] at hr'
        cases Option.some.inj hr'
        exact ⟨le_refl _, fun _ => rfl⟩
      · by_cases hqs : q.status = .running
        · simp only [TM.applyOp, TM.finishOk, hq, hqs, if_true] at hr'
          have hr'eq := TM.getTask_after_update hr hr' (fun t => rfl)
          by_cases hidm : r.taskId == idu
          · have hidu : idu = id := by
              have : r.taskId = idu := by simpa using hidm
              omega
            subst hidu
            rw [hr] at hq
            cases Option.some.inj hq
            rw [hr'eq, if_pos hidm]
            refine ⟨?_, ?_⟩
            · rw [hqs]; simp [TaskStatus.rank]
            · intro hterm; rw [hqs] at hterm
              simp [TaskStatus.isTerminal] at hterm
          · rw [hr'eq, if_neg hidm]
            exact ⟨le_refl _, fun _ => rfl⟩
        · simp only [TM.applyOp, TM.finishOk, hq, hqs, if_false] at hr'
          rw [hr] at hr'
          cases Option.some.inj hr'
          exact ⟨le_refl _, fun _ => rfl⟩
    | finishErr idu err =>
      rcases hq : TM.getTask (TM.run ops) idu with _ | q
      · simp only [TM.applyOp, TM.finishErr, hq] at hr'
        rw [hr] at hr'
        cases Option.some.inj hr'
        exact ⟨le_refl _, fun _ => rfl⟩
      · by_cases hqs : q.status = .running
        · simp only [TM.applyOp, TM.finishErr, hq, hqs, if_true] at hr'
          have hr'eq := TM.getTask_after_update hr hr' (fun t => rfl)
          by_cases hidm : r.taskId == idu
          · have hidu : idu = id := by
              have : r.taskId = idu := by simpa using hidm
              omega
            subst hidu
            rw [hr] at hq
            cases Option.some.inj hq
            rw [hr'eq, if_pos hidm]
            refine ⟨?_, ?_⟩
            · rw [hqs]; simp [TaskStatus.rank]
            · intro hterm; rw [hqs] at hterm
              simp [TaskStatus.isTerminal] at hterm
          · rw [hr'eq, if_neg hidm]
            exact ⟨le_refl _, fun _ => rfl⟩
        · simp only [TM.applyOp, TM.finishErr, hq, hqs, if_false] at hr'
          rw [hr] at hr'
          cases Option.some.inj hr'
          exact ⟨le_refl _, fun _ => rfl⟩
    | cancel idu =>
      rcases hq : TM.getTask (TM.run ops) idu with _ | q
      · simp only [TM.applyOp, TM.cancel, hq] at hr'
        rw [hr] at hr'
        cases Option.some.inj hr'
        exact ⟨le_refl _, fun _ => rfl⟩
      · by_cases hqp : q.status = .pending
        · simp only [TM.applyOp, TM.cancel, hq, hqp, if_true] at hr'
          have hr'eq := TM.getTask_after_update hr hr' (fun t => rfl)
          by_cases hidm : r.taskId == idu
          · have hidu : idu = id := by
              have : r.taskId = idu := by simpa using hidm
              omega
            subst hidu
            rw [hr] at hq
            cases Option.some.inj hq
            rw [hr'eq, if_pos hidm]
            refine ⟨?_, ?_⟩
            · rw [hqp]; simp [TaskStatus.rank]
            · intro hterm; rw [hqp] at hterm
              simp [TaskStatus.isTerminal] at hterm
          · rw [hr'eq, if_neg hidm]
            exact ⟨le_refl _, fun _ => rfl⟩
        · by_cases hqr : q.status = .running
          · simp only [TM.applyOp, TM.cancel, hq, hqp, hqr, if_false, if_true] at hr'
            have hr'eq := TM.getTask_after_update hr hr' (fun t => rfl)
            by_cases hidm : r.taskId == idu
            · have hidu : idu = id := by
                have : r.taskId = idu := by simpa using hidm
                omega
              subst hidu
              rw [hr] at hq
              cases Option.some.inj hq
              rw [hr'eq, if_pos hidm]
              refine ⟨le_refl _, ?_⟩
              · intro hterm; rw [hqr] at hterm
                simp [TaskStatus.isTerminal] at hterm
            · rw [hr'eq, if_neg hidm]
              exact ⟨le_refl _, fun _ => rfl⟩
          · simp only [TM.applyOp, TM.cancel, hq, hqp, hqr, if_false] at hr'
            rw [hr] at hr'
            cases Option.some.inj hr'
            exact ⟨le_refl _, fun _ => rfl⟩
    | observeCancel idu =>
      rcases hq : TM.getTask (TM.run ops) idu with _ | q
      · simp only [TM.applyOp, TM.observeCancel, hq] at hr'
        rw [hr] at hr'
        cases Option.some.inj hr'
        exact ⟨le_refl _, fun _ => rfl⟩
      · by_cases hcond : (q.status = TaskStatus.running && q.cancelRequested) = true
        · simp only [TM.applyOp, TM.observeCancel, hq, hcond, if_true] at hr'
          have hr'eq := TM.getTask_after_update hr hr' (fun t => rfl)
          by_cases hidm : r.taskId == idu
          · have hidu : idu = id := by
              have : r.taskId = idu := by simpa using hidm
              omega
            subst hidu
            rw [hr] at hq
            cases Option.some.inj hq
            have hqr : r.status = .running := by
              rcases Bool.and_eq_true_iff.mp hcond with ⟨h1, _⟩
              exact of_decide_eq_true h1
            rw [hr'eq, if_pos hidm]
            refine ⟨?_, ?_⟩
            · rw [hqr]; simp [TaskStatus.rank]
            · intro hterm; rw [hqr] at hterm
              simp [TaskStatus.isTerminal] at hterm
          · rw [hr'eq, if_neg hidm]
            exact ⟨le_refl _, fun _ => rfl⟩
        · have hcond2 : (q.status = TaskStatus.running && q.cancelRequested) = false :=
            Bool.not_eq_true _ ▸ hcond
          simp only [TM.applyOp, TM.observeCancel, hq, hcond2,
            Bool.false_eq_true, if_false] at hr'
          rw [hr] at hr'
          cases Option.some.inj hr'
          exact ⟨le_refl _, fun _ => rfl⟩

/-- C1 witness: after create, claim and a successful finish, the completed
record has exactly its result populated, and a further cancel leaves it
unchanged. -/
theorem taskManager_terminal_state_invariant_witness :
    ∃ r : TaskRecord,
      TM.getTask
          (TM.run
            [TMOp.create (Json.str "in") "alice", TMOp.claim 0,
             TMOp.finishOk 0 (Json.bool true)])
          0 = some r ∧
        r.status.isTerminal = true ∧
        ((r.result.isSome = true ∧ r.errorDetail = none) ∨
          (r.result = none ∧ r.errorDetail.isSome = true)) ∧
        (∀ r' : TaskRecord,
          TM.getTask
              (TM.applyOp (TMOp.cancel 0)
                (TM.run
                  [TMOp.create (Json.str "in") "alice", TMOp.claim 0,
                   TMOp.finishOk 0 (Json.bool true)]))
              0 = some r' → r' = r) := by
  refine
    ⟨{ taskId := 0, status := .completed, createdAt := 0, updatedAt := 2
       subject := "alice", input := Json.str "in"
       result := some (Json.bool true), errorDetail := none
       cancelRequested := false },
      rfl, rfl, ?_, ?_⟩
  · exact
      taskManager_terminal_state_invariant.1
        [TMOp.create (Json.str "in") "alice", TMOp.claim 0,
         TMOp.finishOk 0 (Json.bool true)]
        0 _ rfl rfl
  · intro r' hr'
    exact
      (taskManager_terminal_state_invariant.2
          [TMOp.create (Json.str "in") "alice", TMOp.claim 0,
           TMOp.finishOk 0 (Json.bool true)]
          (TMOp.cancel 0) 0 _ r' rfl hr').2 rfl

/-- C3: two claim transitions on the same task interleave atomically (the
claim is a conditional write): starting from any state holding the task in
Pending, the first claim succeeds and the second — in either interleaving,
the two invocations being identical — fails with a conflict outcome and
changes nothing, so at most one worker holds the task. -/
theorem taskManager_claim_exactly_once (s : TMState) (id : Nat) (r : TaskRecord)
    (hr : TM.getTask s id = some r) (hp : r.status = .pending) :
    (TM.claim s id).1 = .ok ∧
      (TM.claim (TM.claim s id).2 id).1 = .conflict ∧
      (TM.claim (TM.claim s id).2 id).2 = (TM.claim s id).2 := by
  have hrid : r.taskId = id := TM.getTask_taskId hr
  have h1 :
      (TM.claim s id).2
        = TM.update s id
            (fun t => { t with status := .running, updatedAt := s.clock }) := by
    simp [TM.claim, hr, hp]
  have h2 :
      TM.getTask (TM.claim s id).2 id
        = some { r with status := .running, updatedAt := s.clock } := by
    rw [h1,
      TM.getTask_update s id
        (fun t => { t with status := .running, updatedAt := s.clock })
        (fun t => rfl) id,
      hr]
    simp [hrid]
  have h3 : ∀ (s2 : TMState) (q : TaskRecord), TM.getTask s2 id = some q →
      q.status = TaskStatus.running → TM.claim s2 id = (.conflict, s2) := by
    intro s2 q hq hqs
    simp [TM.claim, hq, hqs]
  have h4 := h3 (TM.claim s id).2 _ h2 rfl
  refine ⟨by simp [TM.claim, hr, hp], ?_, ?_⟩
  · rw [h4]
  · rw [h4]

/-- C3 witness: on a freshly created task the first claim succeeds and the
second conflicts. -/
theorem taskManager_claim_exactly_once_witness :
    (TM.claim (TM.run [TMOp.create (Json.str "x") "bob"]) 0).1 = .ok ∧
      (TM.claim (TM.claim (TM.run [TMOp.create (Json.str "x") "bob"]) 0).2 0).1
        = .conflict := by
  have h :=
    taskManager_claim_exactly_once (TM.run [TMOp.create (Json.str "x") "bob"]) 0
      { taskId := 0, status := .pending, createdAt := 0, updatedAt := 0
        subject := "bob", input := Json.str "x", result := none
        errorDetail := none, cancelRequested := false }
      rfl rfl
  exact ⟨h.1, h.2.1⟩

/-- C4: cancelling a task that is already in a terminal state (Cancelled
in particular) returns AlreadyTerminal and has no side effect at all — the
whole Task Manager state, record and timestamps included, is returned
unchanged; hence a second cancel of a cancelled task is idempotent. -/
theorem taskManager_cancel_idempotent_on_terminal (s : TMState) (id : Nat)
    (r : TaskRecord) (hr : TM.getTask s id = some r)
    (hterm : r.status.isTerminal = true) :
    TM.cancel s id = (.alreadyTerminal, s) := by
  have hp : ¬r.status = .pending := by
    intro h; rw [h] at hterm; simp [TaskStatus.isTerminal] at hterm
  have hrn : ¬r.status = .running := by
    intro h; rw [h] at hterm; simp [TaskStatus.isTerminal] at hterm
  simp [TM.cancel, hr, hp, hrn]

/-- C4 witness: the second cancel of a cancelled task returns
AlreadyTerminal and leaves the state unchanged. -/
theorem taskManager_cancel_idempotent_on_terminal_witness :
    TM.cancel (TM.run [TMOp.create (Json.str "x") "bob", TMOp.cancel 0]) 0
      = (.alreadyTerminal,
          TM.run [TMOp.create (Json.str "x") "bob", TMOp.cancel 0]) :=
  taskManager_cancel_idempotent_on_terminal
    (TM.run [TMOp.create (Json.str "x") "bob", TMOp.cancel 0]) 0
    { taskId := 0, status := .cancelled, createdAt := 0, updatedAt := 1
      subject := "bob", input := Json.str "x", result := none
      errorDetail := some "Task cancelled", cancelRequested := true }
    rfl rfl

/-- C5: create/get round-trip — immediately after `create(input)`, before
any other operation, `get` on the returned task identifier yields exactly
the created record: status Pending, the original input, and no result or
error payload. -/
theorem taskManager_create_get_roundtrip (s : TMState) (input : Json)
    (subject : String) :
    TM.getTask (TM.create s input subject).2 (TM.create s input subject).1.taskId
        = some (TM.create s input subject).1 ∧
      (TM.create s input subject).1.status = .pending ∧
      (TM.create s input subject).1.input = input ∧
      (TM.create s input subject).1.result = none ∧
      (TM.create s input subject).1.errorDetail = none := by
  refine ⟨?_, rfl, rfl, rfl, rfl⟩
  simp [TM.create, TM.getTask]

theorem attemptPersist_all_unavailable {α : Type}
    (backend : Nat → Except StorageErr α)
    (h : ∀ k, backend k = .error .backendUnavailable) :
    ∀ (fuel start : Nat),
      attemptPersist backend start fuel = .error .backendUnavailable
  | 0, _ => rfl
  | fuel + 1, start => by
    simp only [attemptPersist, h start]
    exact attemptPersist_all_unavailable backend h fuel (start + 1)

theorem attemptPersist_ok {α : Type} (backend : Nat → Except StorageErr α) :
    ∀ (fuel start : Nat) (a : α), attemptPersist backend start fuel = .ok a →
      ∃ k, start ≤ k ∧ k < start + fuel ∧ backend k = .ok a
  | 0, start, a, h => by simp [attemptPersist] at h
  | fuel + 1, start, a, h => by
    simp only [attemptPersist] at h
    rcases hb : backend start with e | b
    · rw [hb] at h
      cases e with
      | backendUnavailable =>
        rcases attemptPersist_ok backend fuel (start + 1) a h with ⟨k, h1, h2, h3⟩
        exact ⟨k, by omega, by omega, h3⟩
      | notFound => cases h
      | versionConflict => cases h
      | invalid => cases h
    · rw [hb] at h
      refine ⟨start, le_refl _, by omega, ?_⟩
      rw [hb]
      exact h

theorem attemptPersist_congr {α : Type} (b1 b2 : Nat → Except StorageErr α) :
    ∀ (fuel start : Nat), (∀ k, start ≤ k → k < start + fuel → b1 k = b2 k) →
      attemptPersist b1 start fuel = attemptPersist b2 start fuel
  | 0, _, _ => rfl
  | fuel + 1, start, h => by
    simp only [attemptPersist, h start (le_refl _) (by omega)]
    rcases b2 start with e | b
    · cases e with
      | backendUnavailable =>
        exact
          attemptPersist_congr b1 b2 fuel (start + 1)
            (fun k hk1 hk2 => h k (by omega) (by omega))
      | notFound => rfl
      | versionConflict => rfl
      | invalid => rfl
    · rfl

/-- C6: the Task Manager's persistence policy around task creation — when
every write attempt fails with `BackendUnavailable`, the bounded retry
surfaces `BackendUnavailable` to the caller (never success, never silently
dropped); any other storage failure is surfaced directly; a created task
is only ever reported when some attempt actually succeeded; and the retry
consults at most the fixed attempt budget. -/
theorem taskManager_backendUnavailable_retry :
    (∀ (backend : Nat → Except StorageErr Unit) (m : Nat) (s : TMState)
        (input : Json) (subject : String),
        (∀ k, backend k = .error .backendUnavailable) →
        TM.createPersisted backend m s input subject
          = .error .backendUnavailable) ∧
    (∀ (backend : Nat → Except StorageErr Unit) (m : Nat) (s : TMState)
        (input : Json) (subject : String) (e : StorageErr),
        e ≠ .backendUnavailable → backend 0 = .error e →
        TM.createPersisted backend (m + 1) s input subject = .error e) ∧
    (∀ (backend : Nat → Except StorageErr Unit) (m : Nat) (s : TMState)
        (input : Json) (subject : String) (out : TaskRecord × TMState),
        TM.createPersisted backend m s input subject = .ok out →
        ∃ k, k < m ∧ backend k = .ok ()) ∧
    (∀ (b1 b2 : Nat → Except StorageErr Unit) (m : Nat),
        (∀ k, k < m → b1 k = b2 k) →
        attemptPersist b1 0 m = attemptPersist b2 0 m) := by
  refine ⟨?_, ?_, ?_, ?_⟩
  · intro backend m s input subject h
    rw [TM.createPersisted, attemptPersist_all_unavailable backend h m 0]
  · intro backend m s input subject e he h0
    have h1 : attemptPersist backend 0 (m + 1) = .error e := by
      simp only [attemptPersist, h0]
      cases e with
      | backendUnavailable => exact absurd rfl he
      | notFound => rfl
      | versionConflict => rfl
      | invalid => rfl
    rw [TM.createPersisted, h1]
  · intro backend m s input subject out h
    rw [TM.createPersisted] at h
    rcases ha : attemptPersist backend 0 m with e | u
    · rw [ha] at h; cases h
    · cases u
      rcases attemptPersist_ok backend m 0 () ha with ⟨k, _, hk2, hk3⟩
      exact ⟨k, by omega, hk3⟩
  · intro b1 b2 m h
    exact attemptPersist_congr b1 b2 m 0 (fun k _ hk => h k (by omega))

/-- C6 witness: with a backend that is always unavailable, a three-attempt
task creation surfaces `BackendUnavailable`. -/
theorem taskManager_backendUnavailable_retry_witness :
    TM.createPersisted (fun _ => .error .backendUnavailable) 3 TM.init
        (Json.str "in") "alice"
      = .error .backendUnavailable :=
  taskManager_backendUnavailable_retry.1 (fun _ => .error .backendUnavailable) 3
    TM.init (Json.str "in") "alice" (fun _ => rfl)

theorem SS.wf_applyOp (op : SSOp) (s : SSState) (h : SSState.wf s) :
    SSState.wf (SS.applyOp op s) := by
  cases op with
  | create =>
    intro r hr
    rcases List.mem_cons.mp hr with rfl | hr2
    · simp [SS.applyOp, SS.create]
    · have := h r hr2
      simp only [SS.applyOp, SS.create]
      omega
  | touch id =>
    rcases hq : SS.get s id with _ | q
    · simpa [SS.applyOp, SS.touch, hq] using h
    · intro r hr
      simp only [SS.applyOp, SS.touch, hq] at hr ⊢
      rcases List.mem_map.mp hr with ⟨a, ha, hra⟩
      have := h a ha
      by_cases hk : a.sessionId == id
      · rw [if_pos hk] at hra
        rw [← hra]
        simp
      · rw [if_neg hk] at hra
        rw [← hra]
        omega
  | remove id =>
    intro r hr
    simp only [SS.applyOp, SS.remove] at hr ⊢
    have := h r (List.mem_of_mem_filter hr)
    omega
  | sweep t =>
    intro r hr
    simp only [SS.applyOp, SS.sweep] at hr ⊢
    have := h r (List.mem_of_mem_filter hr)
    omega

theorem SS.wf_run (ops : List SSOp) : SSState.wf (SS.run ops) := by
  suffices h :
      ∀ (l : List SSOp) (s : SSState), SSState.wf s →
        SSState.wf (l.foldl (fun t op => SS.applyOp op t) s) by
    refine h ops SS.init ?_
    intro r hr
    cases hr
  intro l
  induction l with
  | nil => intro s hs; exact hs
  | cons op tl ih =>
    intro s hs
    exact ih (SS.applyOp op s) (SS.wf_applyOp op s hs)

/-- C7: on every reachable Session Store state, touching an existing
session succeeds and an immediately following get returns a record whose
last-activity timestamp is at least the one observed before the touch. -/
theorem sessionStore_touch_monotone (ops : List SSOp) (id : Nat) (r : Session)
    (hr : SS.get (SS.run ops) id = some r) :
    (SS.touch (SS.run ops) id).1 = .ok ∧
      ∀ r', SS.get (SS.touch (SS.run ops) id).2 id = some r' →
        r.lastActivity ≤ r'.lastActivity := by
  have hwf : SSState.wf (SS.run ops) := SS.wf_run ops
  have hla : r.lastActivity ≤ (SS.run ops).clock :=
    hwf r (List.mem_of_find?_eq_some hr)
  constructor
  · simp [SS.touch, hr]
  · intro r' hr'
    have hstate :
        (SS.touch (SS.run ops) id).2.sessions
          = (SS.run ops).sessions.map
              (fun t =>
                if t.sessionId == id then
                  { t with lastActivity := (SS.run ops).clock }
                else t) := by
      simp [SS.touch, hr]
    have hget :
        SS.get (SS.touch (SS.run ops) id).2 id
          = (SS.get (SS.run ops) id).map
              (fun t =>
                if t.sessionId == id then
                  { t with lastActivity := (SS.run ops).clock }
                else t) := by
      rw [SS.get, hstate]
      exact
        find?_map_of_pred_inv _ _
          (fun a => by by_cases hk : a.sessionId == id <;> simp [hk])
          (SS.run ops).sessions
    rw [hget, hr] at hr'
    have hr'' := (Option.some.inj hr').symm
    by_cases hk : r.sessionId == id
    · have hlast : r'.lastActivity = (SS.run ops).clock := by
        rw [hr'']; simp [hk]
      rw [hlast]
      exact hla
    · have hsame : r' = r := by
        rw [hr'']; simp [hk]
      rw [hsame]

/-- C7 witness: touching the session created first moves its last-activity
timestamp from 0 to 1, which is monotone. -/
theorem sessionStore_touch_monotone_witness :
    (SS.touch (SS.run [SSOp.create]) 0).1 = .ok ∧
      Session.lastActivity { sessionId := 0, createdAt := 0, lastActivity := 0 }
        ≤ Session.lastActivity
            { sessionId := 0, createdAt := 0, lastActivity := 1 } := by
  have h :=
    sessionStore_touch_monotone [SSOp.create] 0
      { sessionId := 0, createdAt := 0, lastActivity := 0 } rfl
  exact ⟨h.1, h.2 { sessionId := 0, createdAt := 0, lastActivity := 1 } rfl⟩

theorem withToolAuth_gate_fail {I O : Type} (required : List String)
    (logic : I → ToolM O) (cred : Option String) (env : Env)
    (log : List CamofoxRequest) (input : I) (e : AuthFailure)
    (h : authGate env.validate cred required = .error e) :
    withToolAuth required logic cred input env log
      = (.error (authFailureErr e), log) := by
  simp only [withToolAuth, h]

theorem gateBlocks_of_wrapped {I O : Type} (t : ToolDef I O)
    (raw : I → ToolM O) (ht : t.logic = withToolAuth CAMOFOX_SCOPE raw) :
    gateBlocks t := by
  intro env cred input log e h
  rw [ht]
  exact withToolAuth_gate_fail CAMOFOX_SCOPE raw cred env log input e h

/-- C2: the authentication gate matches the middleware contract — absence
of a credential or a failing validation yields Unauthenticated, a valid
credential lacking a required scope yields Forbidden, and a valid
credential with all required scopes yields its authorization context — and
every camofox tool (aliases included) is wrapped by `withToolAuth` with
the scope set `CAMOFOX_SCOPE = ["tool:camofox:use"]`: whenever the gate
fails, the tool returns the gate's error and issues no HTTP request, so no
tool logic executes without passing the gate. -/
theorem camofox_tools_require_auth :
    CAMOFOX_SCOPE = ["tool:camofox:use"] ∧
    (∀ (validate : String → Option AuthorizationContext)
        (required : List String),
        authGate validate none required = .error .unauthenticated) ∧
    (∀ (validate : String → Option AuthorizationContext)
        (required : List String) (c : String), validate c = none →
        authGate validate (some c) required = .error .unauthenticated) ∧
    (∀ (validate : String → Option AuthorizationContext)
        (required : List String) (c : String) (ctx : AuthorizationContext),
        validate c = some ctx →
        (required.all fun sc => ctx.scopes.contains sc) = false →
        authGate validate (some c) required = .error .forbidden) ∧
    (∀ (validate : String → Option AuthorizationContext)
        (required : List String) (c : String) (ctx : AuthorizationContext),
        validate c = some ctx →
        (required.all fun sc => ctx.scopes.contains sc) = true →
        authGate validate (some c) required = .ok ctx) ∧
    gateBlocks camofoxHealthTool ∧ gateBlocks camofoxStartBrowserTool ∧
    gateBlocks camofoxListTabsTool ∧ gateBlocks camofoxCreateTabTool ∧
    gateBlocks camofoxNavigateTabTool ∧ gateBlocks camofoxGetSnapshotTool ∧
    gateBlocks camofoxClickTool ∧ gateBlocks camofoxTypeTool ∧
    gateBlocks camofoxScrollTool ∧ gateBlocks camofoxCloseTabTool ∧
    gateBlocks camofoxImportCookiesTool ∧ gateBlocks camofoxPressTool ∧
    gateBlocks camofoxWaitTool ∧ gateBlocks camofoxBackTool ∧
    gateBlocks camofoxForwardTool ∧ gateBlocks camofoxRefreshTool ∧
    gateBlocks camofoxGetLinksTool ∧ gateBlocks camofoxScreenshotTool ∧
    gateBlocks camofoxGetStatsTool ∧ gateBlocks camofoxCloseTabGroupTool ∧
    gateBlocks camofoxCloseSessionTool ∧ gateBlocks camofoxHoverTool ∧
    gateBlocks camofoxScrollElementTool ∧ gateBlocks camofoxWaitForTextTool ∧
    gateBlocks camofoxNavigateAndSnapshotTool ∧
    gateBlocks camofoxScrollAndSnapshotTool ∧ gateBlocks typeAndSubmitTool ∧
    gateBlocks fillFormTool ∧ gateBlocks batchClickTool ∧
    gateBlocks webSearchTool ∧ gateBlocks camofoxStopBrowserTool ∧
    gateBlocks camofoxYoutubeTranscriptTool ∧ gateBlocks serverStatusTool ∧
    gateBlocks listTabsTool ∧ gateBlocks createTabTool ∧
    gateBlocks navigateTool ∧ gateBlocks snapshotTool ∧
    gateBlocks typeTextTool ∧ gateBlocks closeTabTool ∧
    gateBlocks goBackTool ∧ gateBlocks goForwardTool ∧
    gateBlocks refreshTool := by
  refine ⟨rfl, fun _ _ => rfl, ?_, ?_, ?_, ?_, ?_, ?_, ?_, ?_, ?_, ?_, ?_, ?_,
    ?_, ?_, ?_, ?_, ?_, ?_, ?_, ?_, ?_, ?_, ?_, ?_, ?_, ?_, ?_, ?_, ?_, ?_,
    ?_, ?_, ?_, ?_, ?_, ?_, ?_, ?_, ?_, ?_, ?_, ?_, ?_, ?_, ?_⟩
  · intro validate required c h
    simp [authGate, h]
  · intro validate required c ctx h1 h2
    simp only [authGate, h1]
    rw [if_neg (by rw [h2]; exact Bool.false_ne_true)]
  · intro validate required c ctx h1 h2
    simp only [authGate, h1]
    rw [if_pos h2]
  · exact gateBlocks_of_wrapped camofoxHealthTool healthLogic rfl
  · exact gateBlocks_of_wrapped camofoxStartBrowserTool startLogic rfl
  · exact gateBlocks_of_wrapped camofoxListTabsTool listTabsLogic rfl
  · exact gateBlocks_of_wrapped camofoxCreateTabTool createTabLogic rfl
  · exact gateBlocks_of_wrapped camofoxNavigateTabTool navigateTabLogic rfl
  · exact gateBlocks_of_wrapped camofoxGetSnapshotTool getSnapshotLogic rfl
  · exact gateBlocks_of_wrapped camofoxClickTool clickLogic rfl
  · exact gateBlocks_of_wrapped camofoxTypeTool typeLogic rfl
  · exact gateBlocks_of_wrapped camofoxScrollTool scrollLogic rfl
  · exact gateBlocks_of_wrapped camofoxCloseTabTool closeTabLogic rfl
  · exact gateBlocks_of_wrapped camofoxImportCookiesTool importCookiesLogic rfl
  · exact gateBlocks_of_wrapped camofoxPressTool pressLogic rfl
  · exact gateBlocks_of_wrapped camofoxWaitTool waitLogic rfl
  · exact gateBlocks_of_wrapped camofoxBackTool backLogic rfl
  · exact gateBlocks_of_wrapped camofoxForwardTool forwardLogic rfl
  · exact gateBlocks_of_wrapped camofoxRefreshTool refreshLogic rfl
  · exact gateBlocks_of_wrapped camofoxGetLinksTool getLinksLogic rfl
  · exact gateBlocks_of_wrapped camofoxScreenshotTool screenshotLogic rfl
  · exact gateBlocks_of_wrapped camofoxGetStatsTool getStatsLogic rfl
  · exact gateBlocks_of_wrapped camofoxCloseTabGroupTool closeTabGroupLogic rfl
  · exact gateBlocks_of_wrapped camofoxCloseSessionTool closeSessionLogic rfl
  · exact gateBlocks_of_wrapped camofoxHoverTool hoverLogic rfl
  · exact gateBlocks_of_wrapped camofoxScrollElementTool scrollElementLogic rfl
  · exact gateBlocks_of_wrapped camofoxWaitForTextTool waitForTextLogic rfl
  · exact
      gateBlocks_of_wrapped camofoxNavigateAndSnapshotTool
        navigateAndSnapshotLogic rfl
  · exact
      gateBlocks_of_wrapped camofoxScrollAndSnapshotTool scrollAndSnapshotLogic
        rfl
  · exact gateBlocks_of_wrapped typeAndSubmitTool typeAndSubmitLogic rfl
  · exact gateBlocks_of_wrapped fillFormTool fillFormLogic rfl
  · exact gateBlocks_of_wrapped batchClickTool batchClickLogic rfl
  · exact gateBlocks_of_wrapped webSearchTool webSearchLogic rfl
  · exact gateBlocks_of_wrapped camofoxStopBrowserTool stopBrowserLogic rfl
  · exact
      gateBlocks_of_wrapped camofoxYoutubeTranscriptTool youtubeTranscriptLogic
        rfl
  · exact gateBlocks_of_wrapped serverStatusTool healthLogic rfl
  · exact gateBlocks_of_wrapped listTabsTool listTabsLogic rfl
  · exact gateBlocks_of_wrapped createTabTool createTabLogic rfl
  · exact gateBlocks_of_wrapped navigateTool navigateTabLogic rfl
  · exact gateBlocks_of_wrapped snapshotTool getSnapshotLogic rfl
  · exact gateBlocks_of_wrapped typeTextTool typeLogic rfl
  · exact gateBlocks_of_wrapped closeTabTool closeTabLogic rfl
  · exact gateBlocks_of_wrapped goBackTool backLogic rfl
  · exact gateBlocks_of_wrapped goForwardTool forwardLogic rfl
  · exact gateBlocks_of_wrapped refreshTool refreshLogic rfl

/-- C2 witness: with a validator that rejects every credential, the health
tool returns Unauthenticated and issues no request. -/
theorem camofox_tools_require_auth_witness :
    authGate sampleEnv.validate (some "tok") CAMOFOX_SCOPE
        = .error .unauthenticated ∧
      camofoxHealthTool.logic (some "tok") {} sampleEnv []
        = (.error (authFailureErr .unauthenticated), []) := by
  refine ⟨rfl, ?_⟩
  exact
    camofox_tools_require_auth.2.2.2.2.2.1 sampleEnv (some "tok") {} []
      .unauthenticated rfl

/-- C8: target-argument preconditions run before any downstream call — for
an authorized invocation of `camofox_navigate_tab` or
`navigate_and_snapshot` with neither `url` nor `macro`, and of
`camofox_click`, `camofox_type`, `camofox_hover` or `type_and_submit` with
neither `ref` nor `selector`, the tool fails with an `McpError` carrying
`InvalidParams` and the request log is returned untouched (no HTTP request
is issued to the camofox backend). -/
theorem camofox_target_preconditions :
    (∀ (env : Env) (cred : Option String) (ctx : AuthorizationContext)
        (input : NavigateTabInput) (log : List CamofoxRequest),
        authGate env.validate cred CAMOFOX_SCOPE = .ok ctx →
        input.url = none → input.macroArg = none →
        camofoxNavigateTabTool.logic cred input env log
          = (.error
              ⟨.InvalidParams, "Provide either url or macro for navigation."⟩,
            log)) ∧
    (∀ (env : Env) (cred : Option String) (ctx : AuthorizationContext)
        (input : NavigateAndSnapshotInput) (log : List CamofoxRequest),
        authGate env.validate cred CAMOFOX_SCOPE = .ok ctx →
        input.url = none → input.macroArg = none →
        camofoxNavigateAndSnapshotTool.logic cred input env log
          = (.error
              ⟨.InvalidParams,
                "Provide either url or macro for navigate_and_snapshot."⟩,
            log)) ∧
    (∀ (env : Env) (cred : Option String) (ctx : AuthorizationContext)
        (input : ClickInput) (log : List CamofoxRequest),
        authGate env.validate cred CAMOFOX_SCOPE = .ok ctx →
        input.ref = none → input.selector = none →
        camofoxClickTool.logic cred input env log
          = (.error
              ⟨.InvalidParams, "Provide either ref or selector for click."⟩,
            log)) ∧
    (∀ (env : Env) (cred : Option String) (ctx : AuthorizationContext)
        (input : TypeInput) (log : List CamofoxRequest),
        authGate env.validate cred CAMOFOX_SCOPE = .ok ctx →
        input.ref = none → input.selector = none →
        camofoxTypeTool.logic cred input env log
          = (.error
              ⟨.InvalidParams, "Provide either ref or selector for typing."⟩,
            log)) ∧
    (∀ (env : Env) (cred : Option String) (ctx : AuthorizationContext)
        (input : HoverInput) (log : List CamofoxRequest),
        authGate env.validate cred CAMOFOX_SCOPE = .ok ctx →
        input.ref = none → input.selector = none →
        camofoxHoverTool.logic cred input env log
          = (.error
              ⟨.InvalidParams, "Provide either ref or selector for hover."⟩,
            log)) ∧
    (∀ (env : Env) (cred : Option String) (ctx : AuthorizationContext)
        (input : TypeAndSubmitInput) (log : List CamofoxRequest),
        authGate env.validate cred CAMOFOX_SCOPE = .ok ctx →
        input.ref = none → input.selector = none →
        typeAndSubmitTool.logic cred input env log
          = (.error
              ⟨.InvalidParams,
                "Provide either ref or selector for type_and_submit."⟩,
            log)) := by
  refine ⟨?_, ?_, ?_, ?_, ?_, ?_⟩
  · intro env cred ctx input log hg hu hm
    simp only [camofoxNavigateTabTool, withToolAuth, hg, navigateTabLogic, hu,
      hm, strTruthy, Bool.not_false, Bool.and_self, if_true, ToolM.throw]
  · intro env cred ctx input log hg hu hm
    simp only [camofoxNavigateAndSnapshotTool, withToolAuth, hg,
      navigateAndSnapshotLogic, hu, hm, strTruthy, Bool.not_false,
      Bool.and_self, if_true, ToolM.throw]
  · intro env cred ctx input log hg hu hm
    simp only [camofoxClickTool, withToolAuth, hg, clickLogic, hu, hm,
      strTruthy, Bool.not_false, Bool.and_self, if_true, ToolM.throw]
  · intro env cred ctx input log hg hu hm
    simp only [camofoxTypeTool, withToolAuth, hg, typeLogic, hu, hm, strTruthy,
      Bool.not_false, Bool.and_self, if_true, ToolM.throw]
  · intro env cred ctx input log hg hu hm
    simp only [camofoxHoverTool, withToolAuth, hg, hoverLogic, hu, hm,
      strTruthy, Bool.not_false, Bool.and_self, if_true, ToolM.throw]
  · intro env cred ctx input log hg hu hm
    simp only [typeAndSubmitTool, withToolAuth, hg, typeAndSubmitLogic, hu, hm,
      strTruthy, Bool.not_false, Bool.and_self, if_true, ToolM.throw]

/-- C8 witness: an authorized navigate call with neither url nor macro
fails with InvalidParams and leaves the (empty) request log empty. -/
theorem camofox_target_preconditions_witness :
    authGate sampleEnvAuthed.validate (some "tok") CAMOFOX_SCOPE
        = .ok sampleCtx ∧
      camofoxNavigateTabTool.logic (some "tok")
          { tabId := "t1", userId := none, sessionKey := none, url := none
            macroArg := none, query := none }
          sampleEnvAuthed []
        = (.error
            ⟨.InvalidParams, "Provide either url or macro for navigation."⟩,
          []) := by
  refine ⟨rfl, ?_⟩
  exact
    camofox_target_preconditions.1 sampleEnvAuthed (some "tok") sampleCtx
      { tabId := "t1", userId := none, sessionKey := none, url := none
        macroArg := none, query := none }
      [] rfl rfl rfl

theorem loadCookiesFromFile_log (p : String) (env : Env)
    (log : List CamofoxRequest) :
    loadCookiesFromFile p env log = ((loadCookiesFromFile p env []).1, log) := by
  rcases hj : env.readFile p with _ | j
  · simp [loadCookiesFromFile, hj]
  · cases j with
    | null => simp [loadCookiesFromFile, hj]
    | bool b => simp [loadCookiesFromFile, hj]
    | num n => simp [loadCookiesFromFile, hj]
    | str s => simp [loadCookiesFromFile, hj]
    | arr xs => simp [loadCookiesFromFile, hj]
    | obj fields =>
      rcases hl : List.lookup "cookies" fields with _ | v
      · simp [loadCookiesFromFile, hj, hl]
      · cases v <;> simp [loadCookiesFromFile, hj, hl]

theorem importCookies_eq_body (userId : String)
    (cookies : Option (List CamofoxCookie)) (path : Option String) (env : Env)
    (log : List CamofoxRequest) :
    importCookiesIfProvided userId cookies path env log
      = importCookiesBody userId cookies env log (fileLoadResult env path) := by
  rcases hm : path.map String.trim with _ | p
  · simp only [importCookiesIfProvided, fileLoadResult, importCookiesBody, hm]
  · cases hp : p.isEmpty with
    | true =>
      simp only [importCookiesIfProvided, fileLoadResult, importCookiesBody,
        hm, hp, if_true]
    | false =>
      simp only [importCookiesIfProvided, fileLoadResult, importCookiesBody,
        hm, hp, Bool.false_eq_true, if_false]
      rw [loadCookiesFromFile_log p env log]
      rcases (loadCookiesFromFile p env []).1 with e | fcs
      · rfl
      · rfl

theorem requestCamofoxJson_eval (method path : String) (body : Option Json)
    (query : List (String × String)) (extraHeaders : List (String × String))
    (env : Env) (log : List CamofoxRequest) :
    requestCamofoxJson method path body query extraHeaders env log
      = (if isRecord
            (env.http log
              { method := method, path := path, body := body, query := query
                headers := jsonHeaders body extraHeaders }) then
          .ok
            (env.http log
              { method := method, path := path, body := body, query := query
                headers := jsonHeaders body extraHeaders })
        else
          .error
            ⟨.SerializationError,
              "Expected JSON object from camofox endpoint " ++ path ++ "."⟩,
        log ++
          [{ method := method, path := path, body := body, query := query
             headers := jsonHeaders body extraHeaders }]) := by
  simp only [requestCamofoxJson]
  by_cases h :
      isRecord
        (env.http log
          { method := method, path := path, body := body, query := query
            headers := jsonHeaders body extraHeaders }) = true
  · rw [if_pos h, if_pos h]
  · rw [if_neg h, if_neg h]

/-- C9: `importCookiesIfProvided` never sends anything when there is
nothing to import — zero cookies after file loading and normalization
yield `{imported: false, count: 0}` with no HTTP request and no
`CAMOFOX_API_KEY` requirement; with at least one cookie and no API key it
fails with `ConfigurationError` before issuing any request; otherwise it
issues exactly the one import request carrying all cookies (direct before
file) and reports `count` equal to the number submitted. -/
theorem importCookies_gating (env : Env) (log : List CamofoxRequest)
    (userId : String) (cookies : Option (List CamofoxCookie))
    (cookiesFilePath : Option String) (fc : List CamofoxCookie)
    (hfile : fileLoadResult env cookiesFilePath = .ok fc) :
    (cookies.getD [] ++ fc = [] →
      importCookiesIfProvided userId cookies cookiesFilePath env log
        = (.ok { imported := false, count := 0, response := none }, log)) ∧
    (cookies.getD [] ++ fc ≠ [] → strTruthy env.camofox.apiKey = false →
      importCookiesIfProvided userId cookies cookiesFilePath env log
        = (.error
            ⟨.ConfigurationError,
              "CAMOFOX_API_KEY is required to import cookies."⟩,
          log)) ∧
    (cookies.getD [] ++ fc ≠ [] → strTruthy env.camofox.apiKey = true →
      (importCookiesIfProvided userId cookies cookiesFilePath env log).2
          = log ++ [cookieImportRequest env userId (cookies.getD [] ++ fc)] ∧
        (isRecord
              (env.http log
                (cookieImportRequest env userId (cookies.getD [] ++ fc)))
            = true →
          (importCookiesIfProvided userId cookies cookiesFilePath env log).1
            = .ok
                { imported := true, count := (cookies.getD [] ++ fc).length
                  response :=
                    some
                      (env.http log
                        (cookieImportRequest env userId
                          (cookies.getD [] ++ fc))) })) := by
  rw [importCookies_eq_body userId cookies cookiesFilePath env log, hfile]
  refine ⟨?_, ?_, ?_⟩
  · intro hempty
    simp [importCookiesBody, hempty]
  · intro hne hkey
    have hie : (cookies.getD [] ++ fc).isEmpty = false := by
      rcases h : cookies.getD [] ++ fc with _ | ⟨x, xs⟩
      · exact absurd h hne
      · rfl
    simp only [importCookiesBody, hie, Bool.false_eq_true, if_false, hkey,
      Bool.not_false, if_true]
  · intro hne hkey
    have hie : (cookies.getD [] ++ fc).isEmpty = false := by
      rcases h : cookies.getD [] ++ fc with _ | ⟨x, xs⟩
      · exact absurd h hne
      · rfl
    simp only [importCookiesBody, hie, Bool.false_eq_true, if_false, hkey,
      Bool.not_true]
    rw [requestCamofoxJson_eval]
    have hreq :
        ({ method := "POST"
           path := "/sessions/" ++ encodeURIComponent userId ++ "/cookies"
           body :=
             some
               (Json.obj
                 [("cookies",
                   Json.arr ((cookies.getD [] ++ fc).map cookieToJson))])
           query := []
           headers :=
             jsonHeaders
               (some
                 (Json.obj
                   [("cookies",
                     Json.arr ((cookies.getD [] ++ fc).map cookieToJson))]))
               [("Authorization",
                 "Bearer " ++ env.camofox.apiKey.getD "")] } : CamofoxRequest)
          = cookieImportRequest env userId (cookies.getD [] ++ fc) := rfl
    rw [hreq]
    by_cases hrec :
        isRecord
          (env.http log (cookieImportRequest env userId (cookies.getD [] ++ fc)))
          = true
    · rw [if_pos hrec]
      exact ⟨rfl, fun _ => rfl⟩
    · rw [if_neg hrec]
      exact ⟨rfl, fun h => absurd h hrec⟩

/-- C9 witness: with no cookies and no file, the import is a no-op success
with count 0, no request issued, even with no API key configured. -/
theorem importCookies_gating_witness :
    fileLoadResult sampleEnv none = .ok [] ∧
      importCookiesIfProvided "default-user" none none sampleEnv []
        = (.ok { imported := false, count := 0, response := none }, []) := by
  refine ⟨rfl, ?_⟩
  exact
    (importCookies_gating sampleEnv [] "default-user" none none [] rfl).1 rfl

theorem normalizeCookie_eq (j : Json) :
    normalizeCookie j
      = if cookieAdmissible j then some (expectedCookie j) else none := by
  cases j with
  | null => simp [normalizeCookie, cookieAdmissible, isRecord]
  | bool b => simp [normalizeCookie, cookieAdmissible, isRecord]
  | num n => simp [normalizeCookie, cookieAdmissible, isRecord]
  | str s => simp [normalizeCookie, cookieAdmissible, isRecord]
  | arr xs => simp [normalizeCookie, cookieAdmissible, isRecord]
  | obj fields =>
    rcases hn : getString (jget (Json.obj fields) "name") with _ | name
    · simp [normalizeCookie, cookieAdmissible, isRecord, hn]
    · rcases hv : getString (jget (Json.obj fields) "value") with _ | v
      · simp [normalizeCookie, cookieAdmissible, isRecord, hn, hv]
      · rcases hd : getString (jget (Json.obj fields) "domain") with _ | d
        · simp [normalizeCookie, cookieAdmissible, isRecord, hn, hv, hd]
        · cases hne : name.isEmpty with
          | true =>
            simp [normalizeCookie, cookieAdmissible, isRecord, hn, hv, hd, hne]
          | false =>
            cases hde : d.isEmpty with
            | true =>
              simp [normalizeCookie, cookieAdmissible, isRecord, hn, hv, hd,
                hne, hde]
            | false =>
              simp [normalizeCookie, cookieAdmissible, isRecord, hn, hv, hd,
                hne, hde, expectedCookie, optStrTruthy]

theorem filterMap_normalizeCookie (l : List Json) :
    l.filterMap normalizeCookie
      = (l.filter cookieAdmissible).map expectedCookie := by
  induction l with
  | nil => rfl
  | cons j tl ih =>
    cases h : cookieAdmissible j with
    | true => simp [List.filterMap_cons, List.filter_cons, normalizeCookie_eq, h, ih]
    | false => simp [List.filterMap_cons, List.filter_cons, normalizeCookie_eq, h, ih]

/-- C10: `normalizeCookies` is a validating filter — the output is, in
input order, exactly the admissible entries (non-array objects with a
non-empty string name, non-empty string domain and a string value),
normalized; the output is never longer than the input; every retained
cookie's `sameSite` is `Strict`, `Lax` or `None` when present; and its
expiry comes from the entry's numeric `expires` value, falling back to its
numeric `expirationDate` value. -/
theorem normalizeCookies_spec (cookies : List Json) :
    normalizeCookies cookies
        = (cookies.filter cookieAdmissible).map expectedCookie ∧
      (normalizeCookies cookies).length ≤ cookies.length ∧
      (∀ c ∈ normalizeCookies cookies, ∀ s, c.sameSite = some s →
        s = "Strict" ∨ s = "Lax" ∨ s = "None") ∧
      (∀ c ∈ normalizeCookies cookies,
        ∃ j ∈ cookies, cookieAdmissible j = true ∧ c = expectedCookie j ∧
          c.expires
            = (getNumber (jget j "expires")).orElse
                (fun _ => getNumber (jget j "expirationDate"))) := by
  have h1 :
      normalizeCookies cookies
        = (cookies.filter cookieAdmissible).map expectedCookie :=
    filterMap_normalizeCookie cookies
  refine ⟨h1, ?_, ?_, ?_⟩
  · rw [h1, List.length_map]
    exact List.length_filter_le _ _
  · intro c hc s hs
    rw [h1] at hc
    rcases List.mem_map.mp hc with ⟨j, hj, hcj⟩
    rcases hss : getString (jget j "sameSite") with _ | t
    · rw [← hcj] at hs
      simp [expectedCookie, hss] at hs
    · by_cases ht : (t = "Strict" || t = "Lax" || t = "None") = true
      · have hcs : c.sameSite = some t := by
          rw [← hcj]; simp [expectedCookie, hss, ht]
        rw [hcs] at hs
        cases Option.some.inj hs
        simp only [Bool.or_eq_true, decide_eq_true_eq] at ht
        tauto
      · have hcs : c.sameSite = none := by
          rw [← hcj]; simp only [expectedCookie, hss]
          rw [if_neg ht]
        rw [hcs] at hs
        cases hs
  · intro c hc
    rw [h1] at hc
    rcases List.mem_map.mp hc with ⟨j, hj, hcj⟩
    refine ⟨j, (List.mem_filter.mp hj).1, (List.mem_filter.mp hj).2, hcj.symm, ?_⟩
    rw [← hcj]
    simp [expectedCookie]

/-- C10 witness: a concrete cookie entry with empty value, `Lax` sameSite
and only an `expirationDate` is retained, normalized, and its expiry falls
back to the `expirationDate` value. -/
theorem normalizeCookies_spec_witness :
    normalizeCookies
          [Json.obj
            [("name", Json.str "sid"), ("value", Json.str ""),
             ("domain", Json.str "example.com"),
             ("sameSite", Json.str "Lax"), ("expirationDate", Json.num 42)]]
        = ((([Json.obj
              [("name", Json.str "sid"), ("value", Json.str ""),
               ("domain", Json.str "example.com"),
               ("sameSite", Json.str "Lax"),
               ("expirationDate",
                Json.num 42)]]).filter cookieAdmissible).map expectedCookie) ∧
      ("Lax" = "Strict" ∨ "Lax" = "Lax" ∨ "Lax" = "None") := by
  have h :=
    normalizeCookies_spec
      [Json.obj
        [("name", Json.str "sid"), ("value", Json.str ""),
         ("domain", Json.str "example.com"), ("sameSite", Json.str "Lax"),
         ("expirationDate", Json.num 42)]]
  refine ⟨h.1, ?_⟩
  refine
    h.2.2.1
      (expectedCookie
        (Json.obj
          [("name", Json.str "sid"), ("value", Json.str ""),
           ("domain", Json.str "example.com"), ("sameSite", Json.str "Lax"),
           ("expirationDate", Json.num 42)]))
      ?_ "Lax" rfl
  rw [h.1]
  exact List.mem_singleton.mpr rfl
